import Mathlib

/-!
# k8s-sync: reconcile and cleanup

A shallow embedding of `cmd/reconcile.go` and `cmd/cleanup.go`.

* External collaborators (the dynamic client, the REST mapper, the random
  source, the YAML stream decoder, the file system) are explicit inputs:
  the client and the random source are oracles over the history of events so
  far, which covers every assignment of outcomes.
* Side effects (API calls, console output, sleeps) are recorded as a trace
  of `Event`s.
* `log.Fatal` and run-time panics are an explicit `Abort` result.
* Go's `int` is a 64-bit integer, `int32` a 32-bit one: both are modelled as
  `Int` with explicit wrap-around.
-/

namespace K8sSync

/-! ## Data model -/

/-- The error returned by an API call, reduced to what the code inspects:
the status reason (`errors.ReasonForError`) and the message. -/
structure APIError where
  reason : String
  message : String
  deriving DecidableEq, Repr

/-- Status reason `metav1.StatusReasonAlreadyExists`. -/
def StatusReasonAlreadyExists : String := "AlreadyExists"

/-- Status reason `metav1.StatusReasonNotFound`. -/
def StatusReasonNotFound : String := "NotFound"

/-- Library predicate `errors.IsAlreadyExists`: the reason of the error is
`AlreadyExists`. -/
def IsAlreadyExists (err : APIError) : Bool :=
  decide (err.reason = StatusReasonAlreadyExists)

/-- Library predicate `errors.IsNotFound`: the reason of the error is `NotFound`.
(Later versions of the library also accept an HTTP 404 whose reason is not
one the library knows; `AlreadyExists` is one it knows, so in every version
the two predicates exclude each other.) -/
def IsNotFound (err : APIError) : Bool :=
  decide (err.reason = StatusReasonNotFound)

/-- The fields of `schema.GroupVersionKind`. -/
structure GroupVersionKind where
  Group : String
  Version : String
  Kind : String
  deriving DecidableEq, Repr

/-- The fields of `schema.GroupKind`. -/
structure GroupKind where
  Group : String
  Kind : String
  deriving DecidableEq, Repr

/-- Method `GroupVersionKind.GroupKind`. -/
def GroupVersionKind.GroupKind (gvk : GroupVersionKind) : GroupKind :=
  { Group := gvk.Group, Kind := gvk.Kind }

/-- The fields of `schema.GroupVersionResource`. -/
structure GroupVersionResource where
  Group : String
  Version : String
  Resource : String
  deriving DecidableEq, Repr

/-- The two scope names of `meta.RESTScope`. -/
inductive RESTScopeName where
  | RESTScopeNameNamespace
  | RESTScopeNameRoot
  deriving DecidableEq, Repr

/-- The fields of `meta.RESTMapping` the code reads. -/
structure RESTMapping where
  Resource : GroupVersionResource
  Scope : RESTScopeName
  deriving DecidableEq, Repr

/-- The projections of `unstructured.Unstructured` the code reads or writes
(`GetKind`, `GetName`, `GetNamespace`, `SetNamespace`); an absent namespace
reads as the empty string. -/
structure Unstructured where
  Kind : String
  Name : String
  Namespace : String
  deriving DecidableEq, Repr

/-- Method `SetNamespace`. -/
def Unstructured.SetNamespace (obj : Unstructured) (ns : String) : Unstructured :=
  { obj with Namespace := ns }

/-- A `dynamic.ResourceInterface`: `dynamicSet.Resource(r)` carries no
namespace, `dynamicSet.Resource(r).Namespace(ns)` carries `ns`. -/
structure ResourceInterface where
  resource : GroupVersionResource
  ns : Option String
  deriving DecidableEq, Repr

/-- Call `dynamicSet.Resource(r)`. -/
def Resource (r : GroupVersionResource) : ResourceInterface :=
  { resource := r, ns := none }

/-- Call `.Namespace(ns)` on a resource handle. -/
def ResourceInterface.Namespace (ri : ResourceInterface) (ns : String) : ResourceInterface :=
  { ri with ns := some ns }

/-- One entry of `map[*schema.GroupVersionKind]*unstructured.Unstructured`.
The key is a pointer: `key` is its address, `gvk` the value it points to.
The object pointer is passed to `Create`, so `key` also identifies the
document in the trace. -/
structure Entry where
  key : Nat
  gvk : GroupVersionKind
  obj : Unstructured
  deriving DecidableEq, Repr

/-- Observable effects, in program order. -/
inductive Event where
  | create (key : Nat) (ri : ResourceInterface) (obj : Unstructured) (err : Option APIError)
  | delete (ri : ResourceInterface) (name : String) (err : Option APIError)
  | printCreated (kind name : String)
  | printAlreadyExists (kind name : String)
  | logNotFound (kind name : String) (err : APIError)
  | logFailedCreate (kind name : String) (err : APIError)
  | logFailedDelete (kind name : String) (err : APIError)
  | printDeleted (kind name : String)
  | printProgress (created all : Int)
  | printRetrying (interval : Int)
  | sleep (nanoseconds : Int)
  deriving DecidableEq, Repr

/-- The collaborators of one run. The client and the random source answer as
a function of the whole history; `create hist key ri obj` is the outcome of
the `Create` call made on the handle `ri` for the document `key` with the
contents `obj`; `range r m` is the order in which the `r`-th
`for ... range` over the map `m` produces its entries. -/
structure World where
  mapper : GroupKind → String → Option RESTMapping
  create : List Event → Nat → ResourceInterface → Unstructured → Option APIError
  delete : List Event → ResourceInterface → String → Option APIError
  rand : List Event → Nat
  range : Nat → List Entry → List Entry

/-- How a run can stop abnormally: `log.Fatal` or a run-time panic. -/
inductive Abort where
  | fatal
  | panic
  deriving DecidableEq, Repr

/-! ## Go maps keyed by pointer -/

/-- Builtin `len(m)`. -/
def mapLen (m : List Entry) : Int := (m.length : Int)

/-- Builtin `delete(m, k)`. -/
def mapDelete (m : List Entry) (k : Nat) : List Entry :=
  m.filter (fun e => e.key != k)

/-- Lookup `m[k]`. -/
def mapLookup (m : List Entry) (k : Nat) : Option Entry :=
  m.find? (fun e => e.key == k)

/-- Assignment `m[k] = v`: replaces the value of an existing key, adds a new key. -/
def mapSet (m : List Entry) (e : Entry) : List Entry :=
  if m.any (fun x => x.key == e.key) then
    m.map (fun x => if x.key == e.key then e else x)
  else m ++ [e]

/-! ## reconcile.go: K8sApply and ApplyGVKUnstructuredObjMap -/

/-- Function `K8sApply`: one `Create` call, classified by the `switch`. Returns
`retryObj` and the events of the call. -/
def K8sApply (w : World) (hist : List Event) (key : Nat)
    (dynamicResourceInterface : ResourceInterface) (unstructuredObj : Unstructured) :
    Bool × List Event :=
  let call := w.create hist key dynamicResourceInterface unstructuredObj
  let ev := Event.create key dynamicResourceInterface unstructuredObj call
  match call with
  | none => (false, [ev, Event.printCreated unstructuredObj.Kind unstructuredObj.Name])
  | some err =>
    if IsAlreadyExists err then
      (false, [ev, Event.printAlreadyExists unstructuredObj.Kind unstructuredObj.Name])
    else if IsNotFound err then
      (true, [ev, Event.logNotFound unstructuredObj.Kind unstructuredObj.Name err])
    else
      (false, [ev, Event.logFailedCreate unstructuredObj.Kind unstructuredObj.Name err])

/-- The result of `ApplyGVKUnstructuredObjMap`: `retryObj`, the object after
the in-place namespace update, and the events. -/
structure ApplyResult where
  retryObj : Bool
  obj : Unstructured
  events : List Event
  deriving DecidableEq, Repr

/-- Function `ApplyGVKUnstructuredObjMap`; `none` is `log.Fatal` on a mapping error. -/
def ApplyGVKUnstructuredObjMap (w : World) (hist : List Event) (key : Nat)
    (groupVersionKind : GroupVersionKind) (unstructuredObj : Unstructured) :
    Option ApplyResult :=
  match w.mapper groupVersionKind.GroupKind groupVersionKind.Version with
  | none => none
  | some mapping =>
    if mapping.Scope = RESTScopeName.RESTScopeNameNamespace then
      let obj :=
        if unstructuredObj.Namespace = "" then unstructuredObj.SetNamespace "default"
        else unstructuredObj
      let dynamicResourceInterface := (Resource mapping.Resource).Namespace obj.Namespace
      let a := K8sApply w hist key dynamicResourceInterface obj
      some { retryObj := a.1, obj := obj, events := a.2 }
    else
      let dynamicResourceInterface := Resource mapping.Resource
      let a := K8sApply w hist key dynamicResourceInterface unstructuredObj
      some { retryObj := a.1, obj := unstructuredObj, events := a.2 }

/-! ## cleanup.go: K8sDelete -/

/-- The `Delete` call of `K8sDelete` and its report. -/
def deleteCall (w : World) (hist : List Event) (dynamicResourceInterface : ResourceInterface)
    (unstructuredObj : Unstructured) : List Event :=
  let err := w.delete hist dynamicResourceInterface unstructuredObj.Name
  let ev := Event.delete dynamicResourceInterface unstructuredObj.Name err
  match err with
  | some e => [ev, Event.logFailedDelete unstructuredObj.Kind unstructuredObj.Name e]
  | none => [ev, Event.printDeleted unstructuredObj.Kind unstructuredObj.Name]

/-- Function `K8sDelete`: the object after the in-place namespace update and the
events of one delete; `none` is `log.Fatal` on a mapping error. -/
def K8sDelete (w : World) (hist : List Event) (groupVersionKind : GroupVersionKind)
    (unstructuredObj : Unstructured) : Option (Unstructured × List Event) :=
  match w.mapper groupVersionKind.GroupKind groupVersionKind.Version with
  | none => none
  | some mapping =>
    if mapping.Scope = RESTScopeName.RESTScopeNameNamespace then
      let obj :=
        if unstructuredObj.Namespace = "" then unstructuredObj.SetNamespace "default"
        else unstructuredObj
      let dynamicResourceInterface := (Resource mapping.Resource).Namespace obj.Namespace
      some (obj, deleteCall w hist dynamicResourceInterface obj)
    else
      let dynamicResourceInterface := Resource mapping.Resource
      some (unstructuredObj, deleteCall w hist dynamicResourceInterface unstructuredObj)

/-- The single pass of `cleanupCmd.Run` over the decoded map, in iteration
order `order`: one `K8sDelete` per entry. -/
def cleanupRange (w : World) : List Entry → List Event → Except (Abort × List Event) (List Event)
  | [], trace => .ok trace
  | e :: rest, trace =>
    match K8sDelete w trace e.gvk e.obj with
    | none => .error (Abort.fatal, trace)
    | some r => cleanupRange w rest (trace ++ r.2)

/-- The delete loop of `cleanupCmd.Run` on the map `m`. -/
def cleanupRun (w : World) (m : List Entry) : Except (Abort × List Event) (List Event) :=
  cleanupRange w (w.range 0 m) []

/-! ## reconcile.go: SyncGVKUnstructuredObjMapToK8s -/

/-- Conversion `int32(x)` of a Go `int`: keeps the low 32 bits, signed. -/
def toInt32 (x : Int) : Int := (x + 2147483648) % 4294967296 - 2147483648

/-- Wrap-around of `int64` arithmetic (the type of `time.Duration`). -/
def wrapInt64 (x : Int) : Int :=
  (x + 9223372036854775808) % 18446744073709551616 - 9223372036854775808

/-- Constant `time.Second`, in nanoseconds. -/
def Second : Int := 1000000000

/-- Library function `rand.Int31n(n)`: panics (`none`) when `n <= 0`,
otherwise returns a value of `[0, n)`, here taken from the raw draw `raw`. -/
def Int31n (raw : Nat) (n : Int) : Option Int :=
  if n ≤ 0 then none else some ((raw : Int) % n)

/-- The working set and the trace so far. -/
structure SyncState where
  ws : List Entry
  trace : List Event
  deriving DecidableEq, Repr

/-- The object stored under key `k` was updated in place through its pointer. -/
def mapUpdateObj (m : List Entry) (k : Nat) (obj : Unstructured) : List Entry :=
  m.map (fun x => if x.key == k then { x with obj := obj } else x)

/-- The body of the inner loop for the entry `e`. An abort carries the
state reached when the run stopped. -/
def syncBody (w : World) (interval allResourceCount : Int) (st : SyncState) (e : Entry) :
    Except (Abort × SyncState) SyncState :=
  match ApplyGVKUnstructuredObjMap w st.trace e.key e.gvk e.obj with
  | none => .error (Abort.fatal, st)
  | some r =>
    let trace := st.trace ++ r.events
    if r.retryObj = false then
      .ok { ws := mapDelete st.ws e.key, trace := trace }
    else
      let ws := mapUpdateObj st.ws e.key r.obj
      let createdResourceCount := allResourceCount - mapLen ws
      let trace := trace ++ [Event.printProgress createdResourceCount allResourceCount,
        Event.printRetrying interval]
      match Int31n (w.rand trace) (toInt32 interval) with
      | none => .error (Abort.panic, { ws := ws, trace := trace })
      | some applyInterval =>
        .ok { ws := ws, trace := trace ++ [Event.sleep (wrapInt64 (applyInterval * Second))] }

/-- One `for ... range gvkUnstructuredObjMap`: the entries come in the order
`order`; an entry deleted before it is reached is not produced. -/
def syncRange (w : World) (interval allResourceCount : Int) :
    List Entry → SyncState → Except (Abort × SyncState) SyncState
  | [], st => .ok st
  | e :: rest, st =>
    match mapLookup st.ws e.key with
    | none => syncRange w interval allResourceCount rest st
    | some cur =>
      match syncBody w interval allResourceCount st cur with
      | .error a => .error a
      | .ok st1 => syncRange w interval allResourceCount rest st1

/-- How a bounded run of the outer loop ends: it returned, it aborted, or it
is still running when the bound is reached. Each case carries the state
reached. -/
inductive SyncResult where
  | returned (st : SyncState)
  | aborted (a : Abort) (st : SyncState)
  | running (st : SyncState)
  deriving DecidableEq, Repr

/-- The outer loop `for len(gvkUnstructuredObjMap) >= 1`, for at most `fuel`
rounds; `round` numbers the rounds. -/
def syncLoop (w : World) (interval allResourceCount : Int) :
    Nat → Nat → SyncState → SyncResult
  | 0, _, st => if mapLen st.ws ≥ 1 then .running st else .returned st
  | fuel + 1, round, st =>
    if mapLen st.ws ≥ 1 then
      match syncRange w interval allResourceCount (w.range round st.ws) st with
      | .error a => .aborted a.1 a.2
      | .ok st1 => syncLoop w interval allResourceCount fuel (round + 1) st1
    else .returned st

/-- Function `SyncGVKUnstructuredObjMapToK8s`, bounded to `fuel` rounds of the outer
loop. -/
def SyncGVKUnstructuredObjMapToK8s (w : World) (fuel : Nat)
    (gvkUnstructuredObjMap : List Entry) (interval : Int) : SyncResult :=
  syncLoop w interval (mapLen gvkUnstructuredObjMap) fuel 0
    { ws := gvkUnstructuredObjMap, trace := [] }

/-- The state a bounded run has reached, however it ended. -/
def SyncResult.state : SyncResult → SyncState
  | .returned st => st
  | .aborted _ st => st
  | .running st => st

/-- The state a loop body or a round has reached, however it ended. -/
def stepState : Except (Abort × SyncState) SyncState → SyncState
  | .ok st => st
  | .error a => a.2

/-! ## reconcile.go: FileBytesToUnstructuredObjGVKMap -/

/-- File contents. -/
abbrev Bytes := List Nat

/-- The outcome of one `decoder.Decode(&rawObj)` that is not end of stream:
a raw document, an error, or a panic inside the decoder (the decoder of the
library panics on a JSON syntax error that lies beyond its buffer). -/
inductive DecodeResult where
  | raw (bytes : Bytes)
  | error
  | panic
  deriving DecidableEq, Repr

/-- The decoding loop. `decoder` lists the outcomes of the successive
`Decode` calls before end of stream (`io.EOF`); `decode` is the decoding
serializer and `toUnstructured` the converter. Each decoded document gets a
freshly allocated key pointer, `next` being the next free address. The
loop is left on end of stream and on any error of `Decode`; a panic of
`Decode` and the `log.Fatal` of a failed conversion abort the run. -/
def decodeLoop {ρ : Type} (decode : Bytes → Option (ρ × GroupVersionKind))
    (toUnstructured : ρ → Option Unstructured) :
    List DecodeResult → Nat → List Entry → Except Abort (List Entry)
  | [], _, m => .ok m
  | DecodeResult.error :: _, _, m => .ok m
  | DecodeResult.panic :: _, _, _ => .error Abort.panic
  | DecodeResult.raw bytes :: rest, next, m =>
    match decode bytes with
    | none => decodeLoop decode toUnstructured rest next m
    | some (obj, groupVersionKind) =>
      match toUnstructured obj with
      | none => .error Abort.fatal
      | some unstructuredObj =>
        decodeLoop decode toUnstructured rest (next + 1)
          (mapSet m { key := next, gvk := groupVersionKind, obj := unstructuredObj })

/-- Function `FileBytesToUnstructuredObjGVKMap`: the loop from an empty map. -/
def FileBytesToUnstructuredObjGVKMap {ρ : Type} (decode : Bytes → Option (ρ × GroupVersionKind))
    (toUnstructured : ρ → Option Unstructured) (decoder : List DecodeResult) (next : Nat) :
    Except Abort (List Entry) :=
  decodeLoop decode toUnstructured decoder next []

/-! ## reconcile.go: DirToBytes -/

/-- What `ioutil.ReadDir`, `os.Stat` and `ioutil.ReadFile` report for one
directory entry: a file with its contents (`none` when unreadable), a
directory with its listing and whether reading it failed, or an entry
`os.Stat` fails on. -/
inductive FsNode where
  | file (name : String) (content : Option Bytes)
  | dir (name : String) (entries : List FsNode) (readErr : Bool)
  | missing (name : String)

/-- Function `AddTrailingSlash`: the pattern `\/$` matches a name that ends in a slash. -/
def AddTrailingSlash (dirname : String) : String :=
  if dirname.data.getLast? = some '/' then dirname else dirname ++ "/"

/-- Scan of `filepath.Ext` from the end of the path: `acc` is the suffix read so far. -/
def extScan : List Char → List Char → String
  | [], _ => ""
  | c :: rest, acc =>
    if c = '/' then ""
    else if c = '.' then String.mk ('.' :: acc)
    else extScan rest (c :: acc)

/-- Library function `filepath.Ext`: the suffix from the last dot of the
last path element, empty when there is none. -/
def Ext (path : String) : String := extScan path.data.reverse []

/-- The extension test of `DirToBytes`. -/
def recognizedExt (name : String) : Bool :=
  !(Ext name != ".yaml" && Ext name != ".yml" && Ext name != ".json")

mutual
/-- The loop body of `DirToBytes` for one entry of the directory `dirname`;
`none` is `log.Fatal` (or the nil dereference after a failed `os.Stat`). -/
def dirEntry (dirname : String) (dirBytes : List Bytes) : FsNode → Option (List Bytes)
  | FsNode.missing _ => none
  | FsNode.dir name entries readErr =>
    match dirLoop (AddTrailingSlash dirname ++ name) entries [] with
    | none => none
    | some subDirBytes => if readErr then none else some (dirBytes ++ subDirBytes)
  | FsNode.file name content =>
    match content with
    | none => some dirBytes
    | some fileBytes => if recognizedExt name then some (dirBytes ++ [fileBytes]) else some dirBytes
/-- The loop of `DirToBytes` over the listing `files`, appending to `dirBytes`. -/
def dirLoop (dirname : String) : List FsNode → List Bytes → Option (List Bytes)
  | [], dirBytes => some dirBytes
  | file :: rest, dirBytes =>
    match dirEntry dirname dirBytes file with
    | none => none
    | some acc => dirLoop dirname rest acc
end

/-- Function `DirToBytes` on a directory whose listing is `files` and whose
`ioutil.ReadDir` reported an error iff `readErr`: the blobs and the error
flag, `none` when the run was aborted. -/
def DirToBytes (dirname : String) (files : List FsNode) (readErr : Bool) :
    Option (List Bytes × Bool) :=
  match dirLoop dirname files [] with
  | none => none
  | some dirBytes => some (dirBytes, readErr)

mutual
/-- Whether every file below a node can be read, every directory listed and
every entry examined. -/
def FsNode.readable : FsNode → Bool
  | FsNode.file _ content => content.isSome
  | FsNode.dir _ entries readErr => !readErr && allReadable entries
  | FsNode.missing _ => false
/-- Whether every node of a listing is readable. -/
def allReadable : List FsNode → Bool
  | [] => true
  | n :: rest => n.readable && allReadable rest
end

mutual
/-- The readable files below a node, at any depth, with their names, in
traversal order. -/
def FsNode.files : FsNode → List (String × Bytes)
  | FsNode.file name (some content) => [(name, content)]
  | FsNode.file _ none => []
  | FsNode.dir _ entries _ => treeFiles entries
  | FsNode.missing _ => []
/-- The readable files of a whole tree, at any depth. -/
def treeFiles : List FsNode → List (String × Bytes)
  | [] => []
  | n :: rest => n.files ++ treeFiles rest
end

/-- The extensions the specification recognizes. -/
def hasRecognizedExtension (name : String) : Bool :=
  Ext name = ".yaml" || Ext name = ".yml" || Ext name = ".json"

/-- The contents of the files with a recognized extension, in order. -/
def recognizedBlobs (files : List (String × Bytes)) : List Bytes :=
  (files.filter (fun f => hasRecognizedExtension f.1)).map Prod.snd

/-! ## Decoded streams -/

/-- The raw documents the decoding loop reaches: those before the first
error or panic of the stream decoder. -/
def reached : List DecodeResult → List Bytes
  | [] => []
  | DecodeResult.error :: _ => []
  | DecodeResult.panic :: _ => []
  | DecodeResult.raw bytes :: rest => bytes :: reached rest

/-- Whether the decoding loop runs into a panic of the stream decoder. -/
def decoderPanics : List DecodeResult → Bool
  | [] => false
  | DecodeResult.error :: _ => false
  | DecodeResult.panic :: _ => true
  | DecodeResult.raw _ :: rest => decoderPanics rest

/-- The raw documents of a stream, wherever they stand. -/
def rawDocuments : List DecodeResult → List Bytes
  | [] => []
  | DecodeResult.error :: rest => rawDocuments rest
  | DecodeResult.panic :: rest => rawDocuments rest
  | DecodeResult.raw bytes :: rest => bytes :: rawDocuments rest

/-- The valid documents among raw ones, decoded, in source order. -/
def validDocuments {ρ : Type} (decode : Bytes → Option (ρ × GroupVersionKind))
    (toUnstructured : ρ → Option Unstructured) (docs : List Bytes) :
    List (GroupVersionKind × Unstructured) :=
  docs.filterMap (fun bytes =>
    match decode bytes with
    | none => none
    | some (obj, groupVersionKind) =>
      match toUnstructured obj with
      | none => none
      | some unstructuredObj => some (groupVersionKind, unstructuredObj))

/-- A sample serializer: a blob decodes when its first byte is not zero; the
kind is always `ConfigMap`, the name is taken from the length. -/
def sampleDecode (bytes : Bytes) : Option (Unstructured × GroupVersionKind) :=
  match bytes with
  | [] => none
  | 0 :: _ => none
  | _ :: rest =>
    some ({ Kind := "ConfigMap", Name := String.mk (List.replicate rest.length 'x'),
            Namespace := "" },
          { Group := "", Version := "v1", Kind := "ConfigMap" })

/-- A sample tree: three recognized files, one text file and a nested
directory with one more recognized file. -/
def sampleTree : List FsNode :=
  [FsNode.file "a.yaml" (some [1]),
   FsNode.file "b.yml" (some [2]),
   FsNode.file "c.json" (some [3]),
   FsNode.file "notes.txt" (some [4]),
   FsNode.dir "sub" [FsNode.dir "deep" [FsNode.file "d.yaml" (some [5])] false] false]

/-! ## Reading traces -/

/-- The names the `Delete` calls of a trace were addressed to, in order. -/
def deleteNames (trace : List Event) : List String :=
  trace.filterMap (fun ev => match ev with
    | Event.delete _ name _ => some name
    | _ => none)

/-- Whether the outcome of a `Create` call is a not-found error. -/
def notFoundOutcome (err : Option APIError) : Bool :=
  match err with
  | some e => IsNotFound e
  | none => false

/-- Whether the outcome of a `Create` call counts as applied: success or
already-exists. -/
def appliedOutcome (err : Option APIError) : Bool :=
  match err with
  | some e => IsAlreadyExists e
  | none => true

/-- The documents (by key) a trace attempted to create, in order. -/
def attemptKeys (trace : List Event) : List Nat :=
  trace.filterMap (fun ev => match ev with
    | Event.create k _ _ _ => some k
    | _ => none)

/-- The documents (by key) whose attempt ended with another outcome than
not-found, in order. -/
def closedKeys (trace : List Event) : List Nat :=
  trace.filterMap (fun ev => match ev with
    | Event.create k _ _ err => if notFoundOutcome err then none else some k
    | _ => none)

/-- The documents (by key) whose `Create` call succeeded, in order. -/
def createdKeys (trace : List Event) : List Nat :=
  trace.filterMap (fun ev => match ev with
    | Event.create k _ _ none => some k
    | _ => none)

/-- The documents (by key) whose attempt counts as applied, in order. -/
def appliedKeys (trace : List Event) : List Nat :=
  trace.filterMap (fun ev => match ev with
    | Event.create k _ _ err => if appliedOutcome err then some k else none
    | _ => none)

/-- The progress reports `<created> of <all>` of a trace, each with the
trace before it. -/
def progressReports : List Event → List (List Event × Int × Int)
  | [] => []
  | ev :: rest =>
    let tail := (progressReports rest).map (fun r => (ev :: r.1, r.2))
    match ev with
    | Event.printProgress n t => ([], n, t) :: tail
    | _ => tail

/-- The durations, in nanoseconds, of the sleeps of a trace. -/
def sleeps (trace : List Event) : List Int :=
  trace.filterMap (fun ev => match ev with
    | Event.sleep d => some d
    | _ => none)

/-- What remains of a trace when only attempts and sleeps are kept. -/
inductive Mark where
  | attempt (key : Nat) (notFound : Bool)
  | sleep
  deriving DecidableEq, Repr

/-- The attempts and sleeps of a trace, in order. -/
def skeleton (trace : List Event) : List Mark :=
  trace.filterMap (fun ev => match ev with
    | Event.create k _ _ err => some (Mark.attempt k (notFoundOutcome err))
    | Event.sleep _ => some Mark.sleep
    | _ => none)

/-- The attempts of a trace with the not-found flag of their outcome. -/
def attempts (trace : List Event) : List (Nat × Bool) :=
  trace.filterMap (fun ev => match ev with
    | Event.create k _ _ err => some (k, notFoundOutcome err)
    | _ => none)

/-- The pattern of attempts and sleeps in which every not-found attempt is
directly followed by one sleep and no other sleep occurs. -/
def sleepAfterEachNotFound (as : List (Nat × Bool)) : List Mark :=
  as.flatMap (fun a => if a.2 then [Mark.attempt a.1 true, Mark.sleep] else [Mark.attempt a.1 false])

/-- Whether a successful `Create` of the document `k` is in the history. -/
def createdIn (k : Nat) (hist : List Event) : Bool :=
  decide (k ∈ createdKeys hist)

/-- Whether the type of an entry resolves in the mapper. -/
def resolves (w : World) (e : Entry) : Bool :=
  (w.mapper e.gvk.GroupKind e.gvk.Version).isSome

/-- The console reports of `K8sApply`. -/
def isReport : Event → Bool
  | Event.printCreated _ _ => true
  | Event.printAlreadyExists _ _ => true
  | Event.logNotFound _ _ _ => true
  | Event.logFailedCreate _ _ _ => true
  | _ => false

/-- No document is attempted again after an attempt that ended with another
outcome than not-found. -/
def NoReattempt (trace : List Event) : Prop :=
  ∀ pre k ri obj err post, trace = pre ++ Event.create k ri obj err :: post →
    notFoundOutcome err = false → k ∉ attemptKeys post

/-! ## Sample inputs -/

/-- A mapper in which `Namespace` is cluster-scoped and every other kind is
namespace-scoped. -/
def sampleMapper (gk : GroupKind) (version : String) : Option RESTMapping :=
  some { Resource := { Group := gk.Group, Version := version, Resource := gk.Kind },
         Scope := if gk.Kind = "Namespace" then RESTScopeName.RESTScopeNameRoot
                  else RESTScopeName.RESTScopeNameNamespace }

/-- A not-found error. -/
def errNotFound : APIError := { reason := "NotFound", message := "namespaces not found" }

/-- An already-exists error. -/
def errAlreadyExists : APIError := { reason := "AlreadyExists", message := "already exists" }

/-- An error that is neither not-found nor already-exists. -/
def errInvalid : APIError := { reason := "Invalid", message := "is invalid" }

/-- Document A: a namespace. -/
def docA : Entry :=
  { key := 0, gvk := { Group := "", Version := "v1", Kind := "Namespace" },
    obj := { Kind := "Namespace", Name := "team", Namespace := "" } }

/-- Document B: a config map without a namespace field. -/
def docB : Entry :=
  { key := 1, gvk := { Group := "", Version := "v1", Kind := "ConfigMap" },
    obj := { Kind := "ConfigMap", Name := "settings", Namespace := "" } }

/-- A cluster in which every create and delete succeeds, iterating maps in
insertion order. -/
def worldOk : World :=
  { mapper := sampleMapper
    create := fun _ _ _ _ => none
    delete := fun _ _ _ => none
    rand := fun _ => 3
    range := fun _ m => m }

/-- A cluster in which the config map is not found until the namespace has
been created, iterating maps in reverse insertion order. -/
def worldDep : World :=
  { mapper := sampleMapper
    create := fun hist _ _ obj =>
      if obj.Kind = "ConfigMap" ∧ createdIn 0 hist = false then some errNotFound else none
    delete := fun _ _ _ => none
    rand := fun _ => 3
    range := fun _ m => m.reverse }

/-- A cluster that rejects the namespace with a terminal error and does not
find the config map. -/
def worldInvalid : World :=
  { mapper := sampleMapper
    create := fun _ _ _ obj =>
      if obj.Kind = "Namespace" then some errInvalid else some errNotFound
    delete := fun _ _ _ => none
    rand := fun _ => 3
    range := fun _ m => m }

/-- A cluster in which the config map is not found until the namespace has
been created and is rejected with a terminal error afterwards, iterating
maps in reverse insertion order. -/
def worldLate : World :=
  { mapper := sampleMapper
    create := fun hist _ _ obj =>
      if obj.Kind = "ConfigMap" then
        (if createdIn 0 hist = false then some errNotFound else some errInvalid)
      else none
    delete := fun _ _ _ => none
    rand := fun _ => 3
    range := fun _ m => m.reverse }

/-- A cluster that finds none of the documents. -/
def worldNotFound : World :=
  { mapper := sampleMapper
    create := fun _ _ _ _ => some errNotFound
    delete := fun _ _ _ => some errNotFound
    rand := fun _ => 3
    range := fun _ m => m }

end K8sSync

namespace K8sSync

/-! ## Theorems -/

theorem reasons_distinct : StatusReasonAlreadyExists ≠ StatusReasonNotFound := by
  decide

/-- C1. `K8sApply` returns `retryObj = true` exactly when the create call
returned a not-found error; on success, on an already-exists error and on
any other error it returns `false`. -/
theorem K8sApply_retry_iff_notFound (w : World) (hist : List Event) (key : Nat)
    (ri : ResourceInterface) (obj : Unstructured) :
    ((K8sApply w hist key ri obj).1 = true ↔
        ∃ err, w.create hist key ri obj = some err ∧ IsNotFound err = true) ∧
    (w.create hist key ri obj = none → (K8sApply w hist key ri obj).1 = false) ∧
    (∀ err, w.create hist key ri obj = some err → IsAlreadyExists err = true →
        (K8sApply w hist key ri obj).1 = false) ∧
    (∀ err, w.create hist key ri obj = some err → IsNotFound err = false →
        (K8sApply w hist key ri obj).1 = false) := by
  have hx : ∀ err : APIError, IsAlreadyExists err = true → IsNotFound err = false := by
    intro err h
    simp only [IsAlreadyExists, IsNotFound, decide_eq_true_eq, decide_eq_false_iff_not] at *
    rw [h]; exact reasons_distinct
  unfold K8sApply
  cases hc : w.create hist key ri obj with
  | none => simp
  | some err =>
    by_cases h1 : IsAlreadyExists err = true
    · have h2 := hx err h1
      simp [h1, h2]
    · by_cases h2 : IsNotFound err = true
      · simp [h1, h2]
      · simp [h1, h2]

theorem K8sApply_events (w : World) (hist : List Event) (key : Nat)
    (ri : ResourceInterface) (obj : Unstructured) :
    ∃ msg, (K8sApply w hist key ri obj).2 =
      [Event.create key ri obj (w.create hist key ri obj), msg] := by
  unfold K8sApply
  cases hc : w.create hist key ri obj with
  | none => exact ⟨_, rfl⟩
  | some err =>
    by_cases h1 : IsAlreadyExists err = true
    · simp [h1]
    · by_cases h2 : IsNotFound err = true
      · simp [h1, h2]
      · simp [h1, h2]

theorem deleteCall_events (w : World) (hist : List Event)
    (ri : ResourceInterface) (obj : Unstructured) :
    ∃ msg, deleteCall w hist ri obj =
      [Event.delete ri obj.Name (w.delete hist ri obj.Name), msg] := by
  unfold deleteCall
  cases hc : w.delete hist ri obj.Name with
  | none => exact ⟨_, rfl⟩
  | some err => exact ⟨_, rfl⟩

theorem Apply_namespaced (w : World) (hist : List Event) (key : Nat)
    (gvk : GroupVersionKind) (obj : Unstructured) (mapping : RESTMapping)
    (hmap : w.mapper gvk.GroupKind gvk.Version = some mapping)
    (hs : mapping.Scope = RESTScopeName.RESTScopeNameNamespace) (ns : String)
    (hns : if obj.Namespace = "" then ns = "default" else ns = obj.Namespace) :
    ApplyGVKUnstructuredObjMap w hist key gvk obj = some
      { retryObj := (K8sApply w hist key { resource := mapping.Resource, ns := some ns }
          { obj with Namespace := ns }).1,
        obj := { obj with Namespace := ns },
        events := (K8sApply w hist key { resource := mapping.Resource, ns := some ns }
          { obj with Namespace := ns }).2 } := by
  by_cases hn : obj.Namespace = ""
  · simp only [hn, if_true] at hns
    subst hns
    simp [ApplyGVKUnstructuredObjMap, hmap, hs, hn, Unstructured.SetNamespace, Resource,
      ResourceInterface.Namespace]
  · simp only [hn, if_false] at hns
    subst hns
    simp [ApplyGVKUnstructuredObjMap, hmap, hs, hn, Resource, ResourceInterface.Namespace]

theorem Apply_cluster (w : World) (hist : List Event) (key : Nat)
    (gvk : GroupVersionKind) (obj : Unstructured) (mapping : RESTMapping)
    (hmap : w.mapper gvk.GroupKind gvk.Version = some mapping)
    (hs : mapping.Scope ≠ RESTScopeName.RESTScopeNameNamespace) :
    ApplyGVKUnstructuredObjMap w hist key gvk obj = some
      { retryObj := (K8sApply w hist key { resource := mapping.Resource, ns := none } obj).1,
        obj := obj,
        events := (K8sApply w hist key { resource := mapping.Resource, ns := none } obj).2 } := by
  simp [ApplyGVKUnstructuredObjMap, hmap, hs, Resource]

theorem K8sDelete_namespaced (w : World) (hist : List Event)
    (gvk : GroupVersionKind) (obj : Unstructured) (mapping : RESTMapping)
    (hmap : w.mapper gvk.GroupKind gvk.Version = some mapping)
    (hs : mapping.Scope = RESTScopeName.RESTScopeNameNamespace) (ns : String)
    (hns : if obj.Namespace = "" then ns = "default" else ns = obj.Namespace) :
    K8sDelete w hist gvk obj = some ({ obj with Namespace := ns },
      deleteCall w hist { resource := mapping.Resource, ns := some ns }
        { obj with Namespace := ns }) := by
  by_cases hn : obj.Namespace = ""
  · simp only [hn, if_true] at hns
    subst hns
    simp [K8sDelete, hmap, hs, hn, Unstructured.SetNamespace, Resource,
      ResourceInterface.Namespace]
  · simp only [hn, if_false] at hns
    subst hns
    simp [K8sDelete, hmap, hs, hn, Resource, ResourceInterface.Namespace]

theorem K8sDelete_cluster (w : World) (hist : List Event)
    (gvk : GroupVersionKind) (obj : Unstructured) (mapping : RESTMapping)
    (hmap : w.mapper gvk.GroupKind gvk.Version = some mapping)
    (hs : mapping.Scope ≠ RESTScopeName.RESTScopeNameNamespace) :
    K8sDelete w hist gvk obj = some (obj,
      deleteCall w hist { resource := mapping.Resource, ns := none } obj) := by
  simp [K8sDelete, hmap, hs, Resource]

theorem exists_defaulted (obj : Unstructured) :
    ∃ ns : String, if obj.Namespace = "" then ns = "default" else ns = obj.Namespace := by
  by_cases hn : obj.Namespace = ""
  · exact ⟨"default", by simp [hn]⟩
  · exact ⟨obj.Namespace, by simp [hn]⟩

/-- C3. When the type of a document resolves to a namespace-scoped mapping,
`ApplyGVKUnstructuredObjMap` and `K8sDelete` both address their call to
namespace "default" and set the namespace of the document to "default" if
it was empty, and to the namespace of the document, left unchanged, if it
was not; when the mapping is cluster-scoped the call carries no namespace
and the document is left unchanged. -/
theorem namespace_defaulting (w : World) (hist : List Event) (key : Nat)
    (gvk : GroupVersionKind) (obj : Unstructured) (mapping : RESTMapping)
    (hmap : w.mapper gvk.GroupKind gvk.Version = some mapping) :
    (mapping.Scope = RESTScopeName.RESTScopeNameNamespace →
      ∃ ns, (if obj.Namespace = "" then ns = "default" else ns = obj.Namespace) ∧
        (∃ r msg, ApplyGVKUnstructuredObjMap w hist key gvk obj = some r ∧
          r.obj = { obj with Namespace := ns } ∧
          r.events = [Event.create key { resource := mapping.Resource, ns := some ns } r.obj
            (w.create hist key { resource := mapping.Resource, ns := some ns } r.obj), msg]) ∧
        (∃ o evs msg, K8sDelete w hist gvk obj = some (o, evs) ∧
          o = { obj with Namespace := ns } ∧
          evs = [Event.delete { resource := mapping.Resource, ns := some ns } obj.Name
            (w.delete hist { resource := mapping.Resource, ns := some ns } obj.Name), msg])) ∧
    (mapping.Scope ≠ RESTScopeName.RESTScopeNameNamespace →
        (∃ r msg, ApplyGVKUnstructuredObjMap w hist key gvk obj = some r ∧
          r.obj = obj ∧
          r.events = [Event.create key { resource := mapping.Resource, ns := none } obj
            (w.create hist key { resource := mapping.Resource, ns := none } obj), msg]) ∧
        (∃ o evs msg, K8sDelete w hist gvk obj = some (o, evs) ∧
          o = obj ∧
          evs = [Event.delete { resource := mapping.Resource, ns := none } obj.Name
            (w.delete hist { resource := mapping.Resource, ns := none } obj.Name), msg])) := by
  constructor
  · intro hs
    obtain ⟨ns, hns⟩ := exists_defaulted obj
    refine ⟨ns, hns, ?_, ?_⟩
    · obtain ⟨msg, hm⟩ := K8sApply_events w hist key
        { resource := mapping.Resource, ns := some ns } { obj with Namespace := ns }
      exact ⟨_, msg, Apply_namespaced w hist key gvk obj mapping hmap hs ns hns, rfl, hm⟩
    · obtain ⟨msg, hm⟩ := deleteCall_events w hist
        { resource := mapping.Resource, ns := some ns } { obj with Namespace := ns }
      exact ⟨_, _, msg, K8sDelete_namespaced w hist gvk obj mapping hmap hs ns hns, rfl, hm⟩
  · intro hs
    constructor
    · obtain ⟨msg, hm⟩ := K8sApply_events w hist key
        { resource := mapping.Resource, ns := none } obj
      exact ⟨_, msg, Apply_cluster w hist key gvk obj mapping hmap hs, rfl, hm⟩
    · obtain ⟨msg, hm⟩ := deleteCall_events w hist
        { resource := mapping.Resource, ns := none } obj
      exact ⟨_, _, msg, K8sDelete_cluster w hist gvk obj mapping hmap hs, rfl, hm⟩

theorem deleteCall_names (w : World) (hist : List Event) (ri : ResourceInterface)
    (obj : Unstructured) : deleteNames (deleteCall w hist ri obj) = [obj.Name] := by
  unfold deleteCall
  cases hc : w.delete hist ri obj.Name <;> simp [deleteNames]

theorem K8sDelete_names (w : World) (hist : List Event) (gvk : GroupVersionKind)
    (obj : Unstructured) (h : (w.mapper gvk.GroupKind gvk.Version).isSome = true) :
    ∃ r, K8sDelete w hist gvk obj = some r ∧ deleteNames r.2 = [obj.Name] := by
  obtain ⟨mapping, hmap⟩ := Option.isSome_iff_exists.mp h
  by_cases hs : mapping.Scope = RESTScopeName.RESTScopeNameNamespace
  · obtain ⟨ns, hns⟩ := exists_defaulted obj
    exact ⟨_, K8sDelete_namespaced w hist gvk obj mapping hmap hs ns hns,
      deleteCall_names w hist _ _⟩
  · exact ⟨_, K8sDelete_cluster w hist gvk obj mapping hmap hs, deleteCall_names w hist _ _⟩

theorem deleteNames_append (a b : List Event) :
    deleteNames (a ++ b) = deleteNames a ++ deleteNames b := by
  simp [deleteNames, List.filterMap_append]

theorem cleanupRange_names (w : World) (order : List Entry)
    (hres : ∀ e ∈ order, (w.mapper e.gvk.GroupKind e.gvk.Version).isSome = true) :
    ∀ trace, ∃ out, cleanupRange w order trace = .ok out ∧
      deleteNames out = deleteNames trace ++ order.map (fun e => e.obj.Name) := by
  induction order with
  | nil => intro trace; exact ⟨trace, rfl, by simp⟩
  | cons e rest ih =>
    intro trace
    obtain ⟨r, hr, hn⟩ := K8sDelete_names w trace e.gvk e.obj (hres e (List.mem_cons_self _ _))
    obtain ⟨out, ho, hnames⟩ := ih (fun x hx => hres x (List.mem_cons_of_mem _ hx)) (trace ++ r.2)
    refine ⟨out, ?_, ?_⟩
    · simp [cleanupRange, hr, ho]
    · rw [hnames, deleteNames_append, hn]; simp

/-- C6. When the type of every decoded document resolves in the catalog,
the cleanup pass completes whatever the delete calls return, and its delete
calls are, in iteration order, exactly one call per document of the map,
addressed by the name of that document: a failed delete neither prevents nor
repeats the delete of another document. -/
theorem cleanup_one_delete_per_document (w : World) (m : List Entry)
    (hperm : (w.range 0 m).Perm m)
    (hres : ∀ e ∈ m, (w.mapper e.gvk.GroupKind e.gvk.Version).isSome = true) :
    ∃ trace, cleanupRun w m = .ok trace ∧
      deleteNames trace = (w.range 0 m).map (fun e => e.obj.Name) ∧
      (deleteNames trace).Perm (m.map (fun e => e.obj.Name)) ∧
      (deleteNames trace).length = m.length := by
  obtain ⟨out, ho, hn⟩ := cleanupRange_names w (w.range 0 m)
    (fun e he => hres e (hperm.mem_iff.mp he)) []
  refine ⟨out, ho, by simpa [deleteNames] using hn, ?_, ?_⟩
  · rw [hn]; simpa [deleteNames] using hperm.map _
  · rw [hn]; simpa [deleteNames] using hperm.length_eq

/-! ### The loop body of `SyncGVKUnstructuredObjMapToK8s` -/

theorem alreadyExists_not_notFound (err : APIError) (h : IsAlreadyExists err = true) :
    IsNotFound err = false := by
  simp only [IsAlreadyExists, IsNotFound, decide_eq_true_eq, decide_eq_false_iff_not] at *
  rw [h]; exact reasons_distinct

theorem K8sApply_eval (w : World) (hist : List Event) (key : Nat)
    (ri : ResourceInterface) (obj : Unstructured) :
    ∃ msg, isReport msg = true ∧ K8sApply w hist key ri obj =
      (notFoundOutcome (w.create hist key ri obj),
        [Event.create key ri obj (w.create hist key ri obj), msg]) := by
  unfold K8sApply
  cases hc : w.create hist key ri obj with
  | none => exact ⟨Event.printCreated obj.Kind obj.Name, rfl, rfl⟩
  | some err =>
    by_cases h1 : IsAlreadyExists err = true
    · have h2 := alreadyExists_not_notFound err h1
      exact ⟨Event.printAlreadyExists obj.Kind obj.Name, rfl, by simp [h1, h2, notFoundOutcome]⟩
    · by_cases h2 : IsNotFound err = true
      · exact ⟨Event.logNotFound obj.Kind obj.Name err, rfl, by simp [h1, h2, notFoundOutcome]⟩
      · exact ⟨Event.logFailedCreate obj.Kind obj.Name err, rfl,
          by simp [h1, h2, notFoundOutcome]⟩

theorem Apply_eval (w : World) (gvk : GroupVersionKind) (obj : Unstructured)
    (h : (w.mapper gvk.GroupKind gvk.Version).isSome = true) :
    ∃ ri ns, ∀ hist key, ApplyGVKUnstructuredObjMap w hist key gvk obj = some
      { retryObj := (K8sApply w hist key ri (obj.SetNamespace ns)).1,
        obj := (obj.SetNamespace ns),
        events := (K8sApply w hist key ri (obj.SetNamespace ns)).2 } := by
  obtain ⟨mapping, hmap⟩ := Option.isSome_iff_exists.mp h
  by_cases hs : mapping.Scope = RESTScopeName.RESTScopeNameNamespace
  · obtain ⟨ns, hns⟩ := exists_defaulted obj
    exact ⟨_, ns, fun hist key => Apply_namespaced w hist key gvk obj mapping hmap hs ns hns⟩
  · exact ⟨_, obj.Namespace, fun hist key => Apply_cluster w hist key gvk obj mapping hmap hs⟩

theorem Apply_unresolved (w : World) (hist : List Event) (key : Nat) (gvk : GroupVersionKind)
    (obj : Unstructured) (h : (w.mapper gvk.GroupKind gvk.Version).isSome = false) :
    ApplyGVKUnstructuredObjMap w hist key gvk obj = none := by
  cases hm : w.mapper gvk.GroupKind gvk.Version with
  | none => simp [ApplyGVKUnstructuredObjMap, hm]
  | some m => simp [hm] at h

theorem Int31n_eval (raw : Nat) (n : Int) (h : 0 < n) :
    ∃ s, 0 ≤ s ∧ s < n ∧ Int31n raw n = some s := by
  refine ⟨(raw : Int) % n, Int.emod_nonneg _ (by omega), Int.emod_lt_of_pos _ h, ?_⟩
  simp [Int31n, not_le.mpr h]

theorem Int31n_panics (raw : Nat) (n : Int) (h : n ≤ 0) : Int31n raw n = none := by
  simp [Int31n, h]

/-- The four ways the loop body can end. -/
theorem syncBody_cases (w : World) (interval all : Int) (st : SyncState) (e : Entry) :
    (resolves w e = false ∧ syncBody w interval all st e = .error (Abort.fatal, st)) ∨
    (resolves w e = true ∧ ∃ ri ns msg, isReport msg = true ∧
      ((notFoundOutcome (w.create st.trace e.key ri (e.obj.SetNamespace ns)) = false ∧
        syncBody w interval all st e = .ok
          { ws := mapDelete st.ws e.key,
            trace := st.trace ++ [Event.create e.key ri (e.obj.SetNamespace ns)
              (w.create st.trace e.key ri (e.obj.SetNamespace ns)), msg] }) ∨
       (notFoundOutcome (w.create st.trace e.key ri (e.obj.SetNamespace ns)) = true ∧
        toInt32 interval ≤ 0 ∧
        syncBody w interval all st e = .error (Abort.panic,
          { ws := mapUpdateObj st.ws e.key (e.obj.SetNamespace ns),
            trace := st.trace ++ [Event.create e.key ri (e.obj.SetNamespace ns)
              (w.create st.trace e.key ri (e.obj.SetNamespace ns)), msg,
              Event.printProgress
                (all - mapLen (mapUpdateObj st.ws e.key (e.obj.SetNamespace ns))) all,
              Event.printRetrying interval] })) ∨
       (notFoundOutcome (w.create st.trace e.key ri (e.obj.SetNamespace ns)) = true ∧
        ∃ s, 0 ≤ s ∧ s < toInt32 interval ∧
        syncBody w interval all st e = .ok
          { ws := mapUpdateObj st.ws e.key (e.obj.SetNamespace ns),
            trace := st.trace ++ [Event.create e.key ri (e.obj.SetNamespace ns)
              (w.create st.trace e.key ri (e.obj.SetNamespace ns)), msg,
              Event.printProgress
                (all - mapLen (mapUpdateObj st.ws e.key (e.obj.SetNamespace ns))) all,
              Event.printRetrying interval,
              Event.sleep (wrapInt64 (s * Second))] }))) := by
  cases hr : resolves w e with
  | false =>
    left
    refine ⟨rfl, ?_⟩
    have := Apply_unresolved w st.trace e.key e.gvk e.obj hr
    simp [syncBody, this]
  | true =>
    right
    refine ⟨rfl, ?_⟩
    obtain ⟨ri, ns, happ⟩ := Apply_eval w e.gvk e.obj hr
    obtain ⟨msg, hmsg, hk⟩ := K8sApply_eval w st.trace e.key ri (e.obj.SetNamespace ns)
    refine ⟨ri, ns, msg, hmsg, ?_⟩
    cases hnf : notFoundOutcome (w.create st.trace e.key ri (e.obj.SetNamespace ns)) with
    | false =>
      left
      refine ⟨rfl, ?_⟩
      simp [syncBody, happ, hk, hnf]
    | true =>
      right
      by_cases hi : toInt32 interval ≤ 0
      · left
        refine ⟨rfl, hi, ?_⟩
        simp [syncBody, happ, hk, hnf, Int31n_panics _ _ hi]
      · right
        have hpos : 0 < toInt32 interval := by omega
        refine ⟨rfl, ((w.rand (st.trace ++
          [Event.create e.key ri (e.obj.SetNamespace ns)
              (w.create st.trace e.key ri (e.obj.SetNamespace ns)), msg,
            Event.printProgress
                (all - mapLen (mapUpdateObj st.ws e.key (e.obj.SetNamespace ns))) all,
              Event.printRetrying interval]) : Nat) : Int) % toInt32 interval,
          Int.emod_nonneg _ (by omega), Int.emod_lt_of_pos _ hpos, ?_⟩
        simp [syncBody, happ, hk, hnf, Int31n, hi]

/-! ### Maps -/

theorem mem_mapDelete {m : List Entry} {k : Nat} {x : Entry} :
    x ∈ mapDelete m k ↔ x ∈ m ∧ x.key ≠ k := by
  simp [mapDelete]

theorem keys_mapDelete (m : List Entry) (k : Nat) :
    (mapDelete m k).map Entry.key = (m.map Entry.key).filter (fun x => x != k) := by
  induction m with
  | nil => rfl
  | cons a rest ih =>
    by_cases h : a.key = k
    · simp [mapDelete, List.filter_cons, h] at ih ⊢
      exact ih
    · simp [mapDelete, List.filter_cons, h] at ih ⊢
      exact ih

theorem keys_mapUpdateObj (m : List Entry) (k : Nat) (obj : Unstructured) :
    (mapUpdateObj m k obj).map Entry.key = m.map Entry.key := by
  induction m with
  | nil => rfl
  | cons a rest ih =>
    simp only [mapUpdateObj, List.map_cons, List.cons.injEq] at ih ⊢
    refine ⟨?_, ih⟩
    split <;> rfl

theorem length_mapUpdateObj (m : List Entry) (k : Nat) (obj : Unstructured) :
    (mapUpdateObj m k obj).length = m.length := by
  simp [mapUpdateObj]

theorem gvk_mapUpdateObj {m : List Entry} {k : Nat} {obj : Unstructured} {x : Entry}
    (h : x ∈ mapUpdateObj m k obj) : ∃ y ∈ m, y.gvk = x.gvk ∧ y.key = x.key := by
  simp only [mapUpdateObj, List.mem_map] at h
  obtain ⟨y, hy, hxy⟩ := h
  refine ⟨y, hy, ?_⟩
  split at hxy <;> subst hxy <;> exact ⟨rfl, rfl⟩

theorem mapLookup_some {m : List Entry} {k : Nat} {cur : Entry}
    (h : mapLookup m k = some cur) : cur ∈ m ∧ cur.key = k := by
  unfold mapLookup at h
  refine ⟨List.mem_of_find?_eq_some h, ?_⟩
  have := List.find?_some h
  simpa using this

theorem mapLookup_none {m : List Entry} {k : Nat}
    (h : mapLookup m k = none) : k ∉ m.map Entry.key := by
  unfold mapLookup at h
  rw [List.find?_eq_none] at h
  intro hk
  obtain ⟨x, hx, hxk⟩ := List.mem_map.mp hk
  exact h x hx (by simp [hxk])

theorem length_mapDelete_of_nodup (m : List Entry) (k : Nat)
    (hnd : (m.map Entry.key).Nodup) (hk : k ∈ m.map Entry.key) :
    (mapDelete m k).length + 1 = m.length := by
  induction m with
  | nil => simp at hk
  | cons a rest ih =>
    simp only [List.map_cons, List.nodup_cons] at hnd
    by_cases h : a.key = k
    · have hnot : k ∉ rest.map Entry.key := h ▸ hnd.1
      have hall : mapDelete rest k = rest := by
        unfold mapDelete
        rw [List.filter_eq_self]
        intro x hx
        have : x.key ≠ k := fun hxk => hnot (List.mem_map.mpr ⟨x, hx, hxk⟩)
        simpa using this
      have : mapDelete (a :: rest) k = mapDelete rest k := by
        simp [mapDelete, List.filter_cons, h]
      rw [this, hall]; simp
    · have hk2 : k ∈ rest.map Entry.key := by
        simp only [List.map_cons, List.mem_cons] at hk
        rcases hk with hk | hk
        · exact absurd hk.symm h
        · exact hk
      have : mapDelete (a :: rest) k = a :: mapDelete rest k := by
        simp [mapDelete, List.filter_cons, h]
      rw [this]
      simp only [List.length_cons]
      have := ih hnd.2 hk2
      omega

/-! ### Invariants of the loops -/

theorem syncRange_invariant (w : World) (interval all : Int) (P : SyncState → Prop)
    (hbody : ∀ st cur, P st → cur ∈ st.ws → P (stepState (syncBody w interval all st cur))) :
    ∀ order st, P st → P (stepState (syncRange w interval all order st)) := by
  intro order
  induction order with
  | nil => intro st h; exact h
  | cons e rest ih =>
    intro st h
    cases hl : mapLookup st.ws e.key with
    | none => simp only [syncRange, hl]; exact ih st h
    | some cur =>
      have hb := hbody st cur h (mapLookup_some hl).1
      cases hs : syncBody w interval all st cur with
      | error a => simp only [syncRange, hl, hs]; rw [hs] at hb; exact hb
      | ok st1 => simp only [syncRange, hl, hs]; rw [hs] at hb; exact ih st1 hb

theorem syncLoop_invariant (w : World) (interval all : Int) (P : SyncState → Prop)
    (hbody : ∀ st cur, P st → cur ∈ st.ws → P (stepState (syncBody w interval all st cur))) :
    ∀ fuel round st, P st → P (syncLoop w interval all fuel round st).state := by
  intro fuel
  induction fuel with
  | zero =>
    intro round st h
    unfold syncLoop
    split <;> exact h
  | succ n ih =>
    intro round st h
    unfold syncLoop
    split
    · have hr := syncRange_invariant w interval all P hbody (w.range round st.ws) st h
      cases hs : syncRange w interval all (w.range round st.ws) st with
      | error a => rw [hs] at hr; exact hr
      | ok st1 => rw [hs] at hr; exact ih (round + 1) st1 hr
    · exact h

/-! ### Traces -/

theorem attemptKeys_append (a b : List Event) :
    attemptKeys (a ++ b) = attemptKeys a ++ attemptKeys b := by
  simp [attemptKeys, List.filterMap_append]

theorem closedKeys_append (a b : List Event) :
    closedKeys (a ++ b) = closedKeys a ++ closedKeys b := by
  simp [closedKeys, List.filterMap_append]

theorem attemptKeys_report {msg : Event} (h : isReport msg = true) : attemptKeys [msg] = [] := by
  cases msg <;> simp_all [isReport, attemptKeys]

theorem closedKeys_report {msg : Event} (h : isReport msg = true) : closedKeys [msg] = [] := by
  cases msg <;> simp_all [isReport, closedKeys]

theorem mem_closedKeys_of_mem {t : List Event} {k : Nat} {ri : ResourceInterface}
    {obj : Unstructured} {err : Option APIError}
    (h : Event.create k ri obj err ∈ t) (hnf : notFoundOutcome err = false) :
    k ∈ closedKeys t := by
  unfold closedKeys
  rw [List.mem_filterMap]
  exact ⟨_, h, by simp [hnf]⟩

theorem mem_attemptKeys_iff {t : List Event} {k : Nat} :
    k ∈ attemptKeys t ↔ ∃ ri obj err, Event.create k ri obj err ∈ t := by
  unfold attemptKeys
  rw [List.mem_filterMap]
  constructor
  · rintro ⟨ev, hev, h⟩
    cases ev <;> simp at h
    subst h
    exact ⟨_, _, _, hev⟩
  · rintro ⟨ri, obj, err, h⟩
    exact ⟨_, h, rfl⟩

theorem NoReattempt_nil : NoReattempt [] := by
  intro pre k ri obj err post h
  simp at h

theorem NoReattempt_snoc {t : List Event} {ev : Event} (ht : NoReattempt t)
    (hev : ∀ k ∈ attemptKeys [ev], k ∉ closedKeys t) : NoReattempt (t ++ [ev]) := by
  intro pre k ri obj err post hsplit hnf
  rcases List.eq_nil_or_concat post with rfl | ⟨post1, last, rfl⟩
  · simp [attemptKeys]
  · have h2 : t ++ [ev] = (pre ++ Event.create k ri obj err :: post1) ++ [last] := by
      rw [hsplit]; simp
    obtain ⟨h3, h4⟩ := List.append_inj' h2 rfl
    have hk1 := ht pre k ri obj err post1 h3 hnf
    have hk2 : k ∈ closedKeys t := by
      apply mem_closedKeys_of_mem _ hnf
      · exact ri
      · exact obj
      · rw [h3]; simp
    rw [List.concat_eq_append, attemptKeys_append]
    intro hmem
    rcases List.mem_append.mp hmem with hm | hm
    · exact hk1 hm
    · have : last = ev := by simpa using h4.symm
      subst this
      exact hev k hm hk2

theorem NoReattempt_append_quiet {evs : List Event} :
    ∀ {t : List Event}, NoReattempt t → attemptKeys evs = [] → NoReattempt (t ++ evs) := by
  induction evs with
  | nil => intro t ht _; simpa using ht
  | cons ev rest ih =>
    intro t ht h
    have h1 : attemptKeys [ev] ++ attemptKeys rest = [] := by
      rw [← attemptKeys_append]; simpa using h
    have h2 := List.append_eq_nil.mp h1
    have : t ++ ev :: rest = (t ++ [ev]) ++ rest := by simp
    rw [this]
    exact ih (NoReattempt_snoc ht (by rw [h2.1]; simp)) h2.2

theorem NoReattempt_append_attempt {t rest : List Event} {k : Nat} {ri : ResourceInterface}
    {obj : Unstructured} {err : Option APIError} (ht : NoReattempt t)
    (hk : k ∉ closedKeys t) (hrest : attemptKeys rest = []) :
    NoReattempt (t ++ Event.create k ri obj err :: rest) := by
  have : t ++ Event.create k ri obj err :: rest = (t ++ [Event.create k ri obj err]) ++ rest := by
    simp
  rw [this]
  refine NoReattempt_append_quiet (NoReattempt_snoc ht ?_) hrest
  intro k1 hk1
  simp [attemptKeys] at hk1
  subst hk1
  exact hk

theorem attemptKeys_cons_report {msg : Event} (h : isReport msg = true) (tl : List Event) :
    attemptKeys (msg :: tl) = attemptKeys tl := by
  cases msg <;> simp_all [isReport, attemptKeys]

theorem closedKeys_cons_report {msg : Event} (h : isReport msg = true) (tl : List Event) :
    closedKeys (msg :: tl) = closedKeys tl := by
  cases msg <;> simp_all [isReport, closedKeys]

theorem closedKeys_cons_create (k : Nat) (ri : ResourceInterface) (obj : Unstructured)
    (err : Option APIError) (tl : List Event) :
    closedKeys (Event.create k ri obj err :: tl) =
      (if notFoundOutcome err then [] else [k]) ++ closedKeys tl := by
  cases h : notFoundOutcome err <;> simp [closedKeys, h]

/-- The invariant behind C2: the trace never attempts a closed document
again, and no closed document is in the working set. -/
theorem noReattempt_body (w : World) (interval all : Int) (st : SyncState) (cur : Entry)
    (h : NoReattempt st.trace ∧ ∀ k ∈ closedKeys st.trace, k ∉ st.ws.map Entry.key)
    (hc : cur ∈ st.ws) :
    NoReattempt (stepState (syncBody w interval all st cur)).trace ∧
      ∀ k ∈ closedKeys (stepState (syncBody w interval all st cur)).trace,
        k ∉ (stepState (syncBody w interval all st cur)).ws.map Entry.key := by
  obtain ⟨hno, hcl⟩ := h
  have hkey : cur.key ∈ st.ws.map Entry.key := List.mem_map.mpr ⟨cur, hc, rfl⟩
  have hopen : cur.key ∉ closedKeys st.trace := fun hk => hcl _ hk hkey
  rcases syncBody_cases w interval all st cur with
    ⟨_, h1⟩ | ⟨_, ri, ns, msg, hmsg, ⟨hnf, h1⟩ | ⟨hnf, _, h1⟩ | ⟨hnf, s, _, _, h1⟩⟩
  · rw [h1]; exact ⟨hno, hcl⟩
  · rw [h1]
    simp only [stepState]
    refine ⟨NoReattempt_append_attempt hno hopen (attemptKeys_report hmsg), ?_⟩
    intro k hk
    rw [closedKeys_append, closedKeys_cons_create, closedKeys_report hmsg, hnf] at hk
    rw [keys_mapDelete]
    simp only [Bool.false_eq_true, if_false, List.append_nil, List.mem_append,
      List.mem_singleton] at hk
    rcases hk with hk | hk
    · intro hm
      exact hcl k hk (List.mem_of_mem_filter hm)
    · subst hk
      simp
  · rw [h1]
    simp only [stepState]
    refine ⟨NoReattempt_append_attempt hno hopen
      (by rw [attemptKeys_cons_report hmsg]; rfl), ?_⟩
    intro k hk
    rw [closedKeys_append, closedKeys_cons_create, closedKeys_cons_report hmsg, hnf] at hk
    rw [keys_mapUpdateObj]
    have hk2 : k ∈ closedKeys st.trace := by simpa [closedKeys] using hk
    exact hcl k hk2
  · rw [h1]
    simp only [stepState]
    refine ⟨NoReattempt_append_attempt hno hopen
      (by rw [attemptKeys_cons_report hmsg]; rfl), ?_⟩
    intro k hk
    rw [closedKeys_append, closedKeys_cons_create, closedKeys_cons_report hmsg, hnf] at hk
    rw [keys_mapUpdateObj]
    have hk2 : k ∈ closedKeys st.trace := by simpa [closedKeys] using hk
    exact hcl k hk2

theorem noReattempt_run (w : World) (fuel : Nat) (m : List Entry) (interval : Int) :
    NoReattempt (SyncGVKUnstructuredObjMapToK8s w fuel m interval).state.trace := by
  have := syncLoop_invariant w interval (mapLen m)
    (fun st => NoReattempt st.trace ∧ ∀ k ∈ closedKeys st.trace, k ∉ st.ws.map Entry.key)
    (fun st cur h hc => noReattempt_body w interval (mapLen m) st cur h hc)
    fuel 0 { ws := m, trace := [] } ⟨NoReattempt_nil, by simp [closedKeys]⟩
  exact this.1

/-! ### Rounds that do not abort -/

theorem resolves_mapDelete {w : World} {m : List Entry} {k : Nat}
    (h : ∀ x ∈ m, resolves w x = true) : ∀ x ∈ mapDelete m k, resolves w x = true :=
  fun x hx => h x (mem_mapDelete.mp hx).1

theorem resolves_mapUpdateObj {w : World} {m : List Entry} {k : Nat} {obj : Unstructured}
    (h : ∀ x ∈ m, resolves w x = true) : ∀ x ∈ mapUpdateObj m k obj, resolves w x = true := by
  intro x hx
  obtain ⟨y, hy, hg, _⟩ := gvk_mapUpdateObj hx
  have := h y hy
  unfold resolves at this ⊢
  rw [← hg]; exact this

theorem syncBody_ok (w : World) (interval all : Int) (st : SyncState) (cur : Entry)
    (hres : resolves w cur = true) (hint : 0 < toInt32 interval) :
    ∃ st1 ext, syncBody w interval all st cur = .ok st1 ∧ st1.trace = st.trace ++ ext ∧
      attemptKeys ext = [cur.key] ∧
      (st1.ws = mapDelete st.ws cur.key ∨ ∃ obj, st1.ws = mapUpdateObj st.ws cur.key obj) := by
  rcases syncBody_cases w interval all st cur with
    ⟨hr, _⟩ | ⟨_, ri, ns, msg, hmsg, ⟨_, h1⟩ | ⟨_, hi, _⟩ | ⟨_, s, _, _, h1⟩⟩
  · rw [hres] at hr; cases hr
  · refine ⟨_, _, h1, rfl, ?_, Or.inl rfl⟩
    have := attemptKeys_report hmsg
    simp only [attemptKeys, List.filterMap_cons, List.filterMap_nil] at this ⊢
    rw [this]
  · omega
  · refine ⟨_, _, h1, rfl, ?_, Or.inr ⟨_, rfl⟩⟩
    have := attemptKeys_cons_report hmsg [Event.printProgress
      (all - mapLen (mapUpdateObj st.ws cur.key (cur.obj.SetNamespace ns))) all,
      Event.printRetrying interval, Event.sleep (wrapInt64 (s * Second))]
    simp only [attemptKeys, List.filterMap_cons, List.filterMap_nil] at this ⊢
    rw [this]

theorem syncRange_attempts (w : World) (interval all : Int) (hint : 0 < toInt32 interval) :
    ∀ order st, (∀ x ∈ st.ws, resolves w x = true) → (order.map Entry.key).Nodup →
      (∀ e ∈ order, e.key ∈ st.ws.map Entry.key) →
      ∃ st1 ext, syncRange w interval all order st = .ok st1 ∧ st1.trace = st.trace ++ ext ∧
        attemptKeys ext = order.map Entry.key ∧ (∀ x ∈ st1.ws, resolves w x = true) ∧
        (∀ k, k ∈ st1.ws.map Entry.key → k ∈ st.ws.map Entry.key) := by
  intro order
  induction order with
  | nil =>
    intro st hres _ _
    exact ⟨st, [], rfl, by simp, rfl, hres, fun _ h => h⟩
  | cons e rest ih =>
    intro st hres hnd hin
    simp only [List.map_cons, List.nodup_cons] at hnd
    have he : e.key ∈ st.ws.map Entry.key := hin e (List.mem_cons_self _ _)
    cases hl : mapLookup st.ws e.key with
    | none => exact absurd he (mapLookup_none hl)
    | some cur =>
      obtain ⟨hcur, hck⟩ := mapLookup_some hl
      obtain ⟨st1, ext1, hb, ht1, ha1, hws⟩ :=
        syncBody_ok w interval all st cur (hres cur hcur) hint
      have hres1 : ∀ x ∈ st1.ws, resolves w x = true := by
        rcases hws with hws | ⟨obj, hws⟩
        · rw [hws]; exact resolves_mapDelete hres
        · rw [hws]; exact resolves_mapUpdateObj hres
      have hsub1 : ∀ k, k ∈ st1.ws.map Entry.key → k ∈ st.ws.map Entry.key := by
        intro k hk
        rcases hws with hws | ⟨obj, hws⟩
        · rw [hws, keys_mapDelete] at hk; exact List.mem_of_mem_filter hk
        · rw [hws, keys_mapUpdateObj] at hk; exact hk
      have hin1 : ∀ x ∈ rest, x.key ∈ st1.ws.map Entry.key := by
        intro x hx
        have hxk : x.key ∈ st.ws.map Entry.key := hin x (List.mem_cons_of_mem _ hx)
        have hne : x.key ≠ cur.key := by
          intro heq
          apply hnd.1
          rw [← hck, ← heq]
          exact List.mem_map.mpr ⟨x, hx, rfl⟩
        rcases hws with hws | ⟨obj, hws⟩
        · rw [hws, keys_mapDelete]
          exact List.mem_filter.mpr ⟨hxk, by simpa using hne⟩
        · rw [hws, keys_mapUpdateObj]; exact hxk
      obtain ⟨st2, ext2, hr2, ht2, ha2, hres2, hsub2⟩ := ih st1 hres1 hnd.2 hin1
      refine ⟨st2, ext1 ++ ext2, ?_, ?_, ?_, hres2, fun k hk => hsub1 k (hsub2 k hk)⟩
      · simp only [syncRange, hl, hb]; exact hr2
      · rw [ht2, ht1, List.append_assoc]
      · rw [attemptKeys_append, ha1, ha2, hck]; rfl

theorem trace_extends_body (w : World) (interval all : Int) (base : List Event)
    (st : SyncState) (cur : Entry) (h : ∃ ext, st.trace = base ++ ext) :
    ∃ ext, (stepState (syncBody w interval all st cur)).trace = base ++ ext := by
  obtain ⟨ext, hext⟩ := h
  rcases syncBody_cases w interval all st cur with
    ⟨_, h1⟩ | ⟨_, ri, ns, msg, hmsg, ⟨hnf, h1⟩ | ⟨hnf, _, h1⟩ | ⟨hnf, s, _, _, h1⟩⟩
  · rw [h1]; exact ⟨ext, hext⟩
  all_goals
    rw [h1]
    simp only [stepState, hext, List.append_assoc]
    exact ⟨_, rfl⟩

theorem syncLoop_trace_extends (w : World) (interval all : Int) (fuel round : Nat)
    (st : SyncState) :
    ∃ ext, (syncLoop w interval all fuel round st).state.trace = st.trace ++ ext :=
  syncLoop_invariant w interval all (fun s => ∃ ext, s.trace = st.trace ++ ext)
    (fun s cur h _ => trace_extends_body w interval all st.trace s cur h)
    fuel round st ⟨[], by simp⟩

theorem first_round_attempts_all (w : World) (fuel : Nat) (m : List Entry) (interval : Int)
    (hperm : (w.range 0 m).Perm m) (hnd : (m.map Entry.key).Nodup)
    (hres : ∀ e ∈ m, resolves w e = true) (hint : 0 < toInt32 interval) :
    ∀ e ∈ m, e.key ∈
      attemptKeys (SyncGVKUnstructuredObjMapToK8s w (fuel + 1) m interval).state.trace := by
  intro e he
  unfold SyncGVKUnstructuredObjMapToK8s
  unfold syncLoop
  have hlen : mapLen m ≥ 1 := by
    cases m with
    | nil => cases he
    | cons a rest => simp [mapLen]
  simp only [hlen, if_true]
  obtain ⟨st1, ext, hr, ht, ha, _, _⟩ := syncRange_attempts w interval (mapLen m) hint
    (w.range 0 m) { ws := m, trace := [] } hres
    ((hperm.map Entry.key).nodup_iff.mpr hnd)
    (fun x hx => List.mem_map.mpr ⟨x, hperm.mem_iff.mp hx, rfl⟩)
  rw [hr]
  simp only
  obtain ⟨ext2, h2⟩ := syncLoop_trace_extends w interval (mapLen m) fuel (0 + 1) st1
  rw [h2, ht, attemptKeys_append, attemptKeys_append, ha]
  simp only [List.mem_append, List.mem_map]
  exact Or.inl (Or.inr ⟨e, hperm.mem_iff.mpr he, rfl⟩)

theorem exists_first_attempt {k : Nat} :
    ∀ {t : List Event}, k ∈ attemptKeys t →
      ∃ pre ri obj err post, t = pre ++ Event.create k ri obj err :: post ∧
        k ∉ attemptKeys pre := by
  intro t
  induction t with
  | nil => intro h; simp [attemptKeys] at h
  | cons ev rest ih =>
    intro h
    by_cases hev : k ∈ attemptKeys [ev]
    · obtain ⟨ri, obj, err, hmem⟩ := mem_attemptKeys_iff.mp hev
      have : ev = Event.create k ri obj err := (List.mem_singleton.mp hmem).symm
      exact ⟨[], ri, obj, err, rest, by simp [this], by simp [attemptKeys]⟩
    · have hrest : k ∈ attemptKeys rest := by
        have : ev :: rest = [ev] ++ rest := rfl
        rw [this, attemptKeys_append] at h
        rcases List.mem_append.mp h with h | h
        · exact absurd h hev
        · exact h
      obtain ⟨pre, ri, obj, err, post, hsplit, hpre⟩ := ih hrest
      refine ⟨ev :: pre, ri, obj, err, post, by simp [hsplit], ?_⟩
      have : ev :: pre = [ev] ++ pre := rfl
      rw [this, attemptKeys_append]
      intro hm
      rcases List.mem_append.mp hm with hm | hm
      · exact hev hm
      · exact hpre hm

theorem attempted_once {t : List Event} {k : Nat} (hno : NoReattempt t)
    (hin : k ∈ attemptKeys t)
    (hall : ∀ ri obj err, Event.create k ri obj err ∈ t → notFoundOutcome err = false) :
    (attemptKeys t).count k = 1 := by
  obtain ⟨pre, ri, obj, err, post, hsplit, hpre⟩ := exists_first_attempt hin
  have hnf : notFoundOutcome err = false := hall ri obj err (by rw [hsplit]; simp)
  have hpost := hno pre k ri obj err post hsplit hnf
  have h1 : attemptKeys t = attemptKeys pre ++ k :: attemptKeys post := by
    rw [hsplit, attemptKeys_append]
    rfl
  rw [h1, List.count_append, List.count_cons_self, List.count_eq_zero.mpr hpre,
    List.count_eq_zero.mpr hpost]

/-- C2, counterexample. The config map is not found in the first round and
gets a terminal error in the second, once the namespace exists: it gets a
terminal error and has been attempted twice, not once. -/
theorem terminal_error_after_retry_is_second_attempt :
    attempts (SyncGVKUnstructuredObjMapToK8s worldLate 2 [docA, docB] 5).state.trace =
      [(1, true), (0, false), (1, false)] ∧
    Event.create 1
        { resource := { Group := "", Version := "v1", Resource := "ConfigMap" },
          ns := some "default" }
        { Kind := "ConfigMap", Name := "settings", Namespace := "default" } (some errInvalid) ∈
      (SyncGVKUnstructuredObjMapToK8s worldLate 2 [docA, docB] 5).state.trace ∧
    (attemptKeys
      (SyncGVKUnstructuredObjMapToK8s worldLate 2 [docA, docB] 5).state.trace).count 1 = 2 := by
  decide

/-- C2, as amended. In `SyncGVKUnstructuredObjMapToK8s`, for every working
set and every assignment of create outcomes: the attempt of a document
removes it from the working set exactly when the outcome is not a not-found
error, and leaves every other document where it is; a document is never
attempted again after an attempt with such an outcome, so the attempt at
which it gets a terminal error is its last; every document of the working
set is attempted, whatever the outcomes of the others; and a document none
of whose attempts ends in not-found is attempted exactly once. -/
theorem sync_removes_iff_not_notFound (w : World) (fuel : Nat) (m : List Entry)
    (interval : Int) (hperm : (w.range 0 m).Perm m) (hnd : (m.map Entry.key).Nodup)
    (hres : ∀ e ∈ m, resolves w e = true) (hint : 0 < toInt32 interval) :
    (∀ st cur, cur ∈ st.ws → resolves w cur = true →
      ∃ st1 ri obj msgs, syncBody w interval (mapLen m) st cur = .ok st1 ∧
        st1.trace = st.trace ++
          Event.create cur.key ri obj (w.create st.trace cur.key ri obj) :: msgs ∧
        attemptKeys msgs = [] ∧
        (cur.key ∉ st1.ws.map Entry.key ↔
          notFoundOutcome (w.create st.trace cur.key ri obj) = false) ∧
        (∀ k, k ≠ cur.key → (k ∈ st1.ws.map Entry.key ↔ k ∈ st.ws.map Entry.key))) ∧
    (∀ pre k ri obj err post,
      (SyncGVKUnstructuredObjMapToK8s w (fuel + 1) m interval).state.trace =
        pre ++ Event.create k ri obj err :: post →
      notFoundOutcome err = false → k ∉ attemptKeys post) ∧
    (∀ e ∈ m, e.key ∈
      attemptKeys (SyncGVKUnstructuredObjMapToK8s w (fuel + 1) m interval).state.trace) ∧
    (∀ e ∈ m,
      (∀ ri obj err, Event.create e.key ri obj err ∈
          (SyncGVKUnstructuredObjMapToK8s w (fuel + 1) m interval).state.trace →
        notFoundOutcome err = false) →
      (attemptKeys
        (SyncGVKUnstructuredObjMapToK8s w (fuel + 1) m interval).state.trace).count e.key
        = 1) := by
  have hall := first_round_attempts_all w fuel m interval hperm hnd hres hint
  have hno := noReattempt_run w (fuel + 1) m interval
  refine ⟨?_, hno, hall, fun e he h => attempted_once hno (hall e he) h⟩
  intro st cur hcur hrc
  have hkey : cur.key ∈ st.ws.map Entry.key := List.mem_map.mpr ⟨cur, hcur, rfl⟩
  rcases syncBody_cases w interval (mapLen m) st cur with
    ⟨hr, _⟩ | ⟨_, ri, ns, msg, hmsg, ⟨hnf, h1⟩ | ⟨_, hi, _⟩ | ⟨hnf, s, _, _, h1⟩⟩
  · rw [hrc] at hr; cases hr
  · refine ⟨_, ri, cur.obj.SetNamespace ns, [msg], h1, rfl, attemptKeys_report hmsg, ?_, ?_⟩
    · simp only [keys_mapDelete, hnf, iff_true]
      simp
    · intro k hk
      simp only [keys_mapDelete, List.mem_filter]
      constructor
      · exact fun h => h.1
      · exact fun h => ⟨h, by simpa using hk⟩
  · omega
  · refine ⟨_, ri, cur.obj.SetNamespace ns, _, h1, rfl, ?_, ?_, ?_⟩
    · rw [attemptKeys_cons_report hmsg]; rfl
    · simp only [keys_mapUpdateObj, hnf]
      simp [hkey]
    · intro k _
      simp only [keys_mapUpdateObj]

/-! ### Sleeps -/

theorem skeleton_append (a b : List Event) : skeleton (a ++ b) = skeleton a ++ skeleton b := by
  simp [skeleton, List.filterMap_append]

theorem attempts_append (a b : List Event) : attempts (a ++ b) = attempts a ++ attempts b := by
  simp [attempts, List.filterMap_append]

theorem sleepAfterEachNotFound_append (a b : List (Nat × Bool)) :
    sleepAfterEachNotFound (a ++ b) = sleepAfterEachNotFound a ++ sleepAfterEachNotFound b := by
  simp [sleepAfterEachNotFound, List.flatMap_append]

theorem skeleton_cons_report {msg : Event} (h : isReport msg = true) (tl : List Event) :
    skeleton (msg :: tl) = skeleton tl := by
  cases msg <;> simp_all [isReport, skeleton]

theorem attempts_cons_report {msg : Event} (h : isReport msg = true) (tl : List Event) :
    attempts (msg :: tl) = attempts tl := by
  cases msg <;> simp_all [isReport, attempts]

theorem sleep_pattern_body (w : World) (interval all : Int) (hint : 0 < toInt32 interval)
    (st : SyncState) (cur : Entry)
    (h : skeleton st.trace = sleepAfterEachNotFound (attempts st.trace)) :
    skeleton (stepState (syncBody w interval all st cur)).trace =
      sleepAfterEachNotFound (attempts (stepState (syncBody w interval all st cur)).trace) := by
  rcases syncBody_cases w interval all st cur with
    ⟨_, h1⟩ | ⟨_, ri, ns, msg, hmsg, ⟨hnf, h1⟩ | ⟨_, hi, _⟩ | ⟨hnf, s, _, _, h1⟩⟩
  · rw [h1]; exact h
  · rw [h1]
    simp only [stepState]
    rw [skeleton_append, attempts_append, sleepAfterEachNotFound_append, h]
    congr 1
    have e1 : skeleton (Event.create cur.key ri (cur.obj.SetNamespace ns)
        (w.create st.trace cur.key ri (cur.obj.SetNamespace ns)) :: [msg]) =
        Mark.attempt cur.key false :: skeleton [msg] := by
      simp [skeleton, hnf]
    have e2 : attempts (Event.create cur.key ri (cur.obj.SetNamespace ns)
        (w.create st.trace cur.key ri (cur.obj.SetNamespace ns)) :: [msg]) =
        (cur.key, false) :: attempts [msg] := by
      simp [attempts, hnf]
    rw [e1, e2, skeleton_cons_report hmsg, attempts_cons_report hmsg]
    simp [skeleton, attempts, sleepAfterEachNotFound]
  · omega
  · rw [h1]
    simp only [stepState]
    rw [skeleton_append, attempts_append, sleepAfterEachNotFound_append, h]
    congr 1
    have e1 : ∀ tl, skeleton (Event.create cur.key ri (cur.obj.SetNamespace ns)
        (w.create st.trace cur.key ri (cur.obj.SetNamespace ns)) :: msg :: tl) =
        Mark.attempt cur.key true :: skeleton (msg :: tl) := by
      intro tl; simp [skeleton, hnf]
    have e2 : ∀ tl, attempts (Event.create cur.key ri (cur.obj.SetNamespace ns)
        (w.create st.trace cur.key ri (cur.obj.SetNamespace ns)) :: msg :: tl) =
        (cur.key, true) :: attempts (msg :: tl) := by
      intro tl; simp [attempts, hnf]
    rw [e1, e2, skeleton_cons_report hmsg, attempts_cons_report hmsg]
    simp [skeleton, attempts, sleepAfterEachNotFound]

/-- C10, as amended. The backoff sleep is taken once directly after every
attempt whose outcome is not-found, before the next document of the same
round is attempted, and at no other time: keeping only the attempts and the
sleeps of a run, every not-found attempt is followed by exactly one sleep
and every other attempt by none. -/
theorem sleep_after_each_notFound_attempt (w : World) (fuel : Nat) (m : List Entry)
    (interval : Int) (hint : 0 < toInt32 interval) :
    skeleton (SyncGVKUnstructuredObjMapToK8s w fuel m interval).state.trace =
      sleepAfterEachNotFound
        (attempts (SyncGVKUnstructuredObjMapToK8s w fuel m interval).state.trace) :=
  syncLoop_invariant w interval (mapLen m)
    (fun st => skeleton st.trace = sleepAfterEachNotFound (attempts st.trace))
    (fun st cur h _ => sleep_pattern_body w interval (mapLen m) hint st cur h)
    fuel 0 { ws := m, trace := [] } rfl

/-- C10, counterexample. With two documents that are both not found, the
single round of a run bounded to one round sleeps twice, and the first sleep
lies between the attempts of the two documents: it is not true that a sleep
can only be the last thing a round does. -/
theorem sleep_between_attempts_of_one_round :
    skeleton (SyncGVKUnstructuredObjMapToK8s worldNotFound 1 [docA, docB] 5).state.trace =
      [Mark.attempt 0 true, Mark.sleep, Mark.attempt 1 true, Mark.sleep] ∧
    ¬ (∀ pre post,
      skeleton (SyncGVKUnstructuredObjMapToK8s worldNotFound 1 [docA, docB] 5).state.trace =
        pre ++ Mark.sleep :: post → post = []) := by
  have h : skeleton (SyncGVKUnstructuredObjMapToK8s worldNotFound 1 [docA, docB] 5).state.trace =
      [Mark.attempt 0 true, Mark.sleep, Mark.attempt 1 true, Mark.sleep] := by decide
  refine ⟨h, ?_⟩
  intro hall
  have := hall [Mark.attempt 0 true] [Mark.attempt 1 true, Mark.sleep] (by rw [h]; rfl)
  cases this

/-- C10, witness. -/
theorem sleep_after_each_notFound_attempt_witness :
    0 < toInt32 5 ∧
    skeleton (SyncGVKUnstructuredObjMapToK8s worldInvalid 3 [docA, docB] 5).state.trace =
      sleepAfterEachNotFound
        (attempts (SyncGVKUnstructuredObjMapToK8s worldInvalid 3 [docA, docB] 5).state.trace) :=
  ⟨by decide, sleep_after_each_notFound_attempt worldInvalid 3 [docA, docB] 5 (by decide)⟩

/-! ### Progress reports -/

theorem progressReports_append (a b : List Event) :
    progressReports (a ++ b) =
      progressReports a ++ (progressReports b).map (fun r => (a ++ r.1, r.2)) := by
  induction a with
  | nil => simp [progressReports]
  | cons ev rest ih =>
    cases ev <;> simp [progressReports, ih, List.map_map, Function.comp_def]

theorem progressReports_closed {msg : Event} (h : isReport msg = true) (k : Nat)
    (ri : ResourceInterface) (obj : Unstructured) (err : Option APIError) :
    progressReports [Event.create k ri obj err, msg] = [] := by
  cases msg <;> simp_all [isReport, progressReports]

theorem progressReports_retry {msg : Event} (h : isReport msg = true) (k : Nat)
    (ri : ResourceInterface) (obj : Unstructured) (err : Option APIError) (n t i : Int)
    (tl : List Event) (htl : progressReports tl = []) :
    progressReports (Event.create k ri obj err :: msg :: Event.printProgress n t ::
      Event.printRetrying i :: tl) = [([Event.create k ri obj err, msg], n, t)] := by
  cases msg <;> simp_all [isReport, progressReports]

/-- What the progress report counts: the first number is the number of
documents removed from the working set so far, whatever the outcome that
removed them, and the second is the initial size of the working set. -/
theorem progress_body (w : World) (interval all : Int) (st : SyncState) (cur : Entry)
    (h : (st.ws.map Entry.key).Nodup ∧
      all = mapLen st.ws + ((closedKeys st.trace).length : Int) ∧
      ∀ r ∈ progressReports st.trace, r.2.2 = all ∧ r.2.1 = ((closedKeys r.1).length : Int))
    (hc : cur ∈ st.ws) :
    ((stepState (syncBody w interval all st cur)).ws.map Entry.key).Nodup ∧
      all = mapLen (stepState (syncBody w interval all st cur)).ws +
        ((closedKeys (stepState (syncBody w interval all st cur)).trace).length : Int) ∧
      ∀ r ∈ progressReports (stepState (syncBody w interval all st cur)).trace,
        r.2.2 = all ∧ r.2.1 = ((closedKeys r.1).length : Int) := by
  obtain ⟨hnd, hcount, hrep⟩ := h
  have hkey : cur.key ∈ st.ws.map Entry.key := List.mem_map.mpr ⟨cur, hc, rfl⟩
  have hretry : ∀ (ri : ResourceInterface) (ns : String) (msg : Event) (n : Int)
      (tl : List Event), isReport msg = true → progressReports tl = [] → closedKeys tl = [] →
      notFoundOutcome (w.create st.trace cur.key ri (cur.obj.SetNamespace ns)) = true →
      n = all - mapLen st.ws →
      all = mapLen st.ws +
        ((closedKeys (st.trace ++ Event.create cur.key ri (cur.obj.SetNamespace ns)
          (w.create st.trace cur.key ri (cur.obj.SetNamespace ns)) :: msg ::
          Event.printProgress n all :: Event.printRetrying interval :: tl)).length : Int) ∧
      ∀ r ∈ progressReports (st.trace ++ Event.create cur.key ri (cur.obj.SetNamespace ns)
          (w.create st.trace cur.key ri (cur.obj.SetNamespace ns)) :: msg ::
          Event.printProgress n all :: Event.printRetrying interval :: tl),
        r.2.2 = all ∧ r.2.1 = ((closedKeys r.1).length : Int) := by
    intro ri ns msg n tl hmsg htl htlc hnf hn
    have hck : closedKeys (Event.create cur.key ri (cur.obj.SetNamespace ns)
          (w.create st.trace cur.key ri (cur.obj.SetNamespace ns)) :: msg ::
          Event.printProgress n all :: Event.printRetrying interval :: tl) = [] := by
      rw [closedKeys_cons_create, hnf, closedKeys_cons_report hmsg]
      simpa [closedKeys] using htlc
    have hck2 : closedKeys [Event.create cur.key ri (cur.obj.SetNamespace ns)
          (w.create st.trace cur.key ri (cur.obj.SetNamespace ns)), msg] = [] := by
      rw [closedKeys_cons_create, hnf, closedKeys_report hmsg]
      rfl
    refine ⟨?_, ?_⟩
    · rw [closedKeys_append, hck, List.append_nil]
      exact hcount
    · intro r hr
      rw [progressReports_append, progressReports_retry hmsg _ _ _ _ _ _ _ _ htl] at hr
      rcases List.mem_append.mp hr with hr | hr
      · exact hrep r hr
      · simp only [List.map_cons, List.map_nil, List.mem_singleton] at hr
        subst hr
        refine ⟨rfl, ?_⟩
        simp only [closedKeys_append, hck2, List.append_nil]
        omega
  have hlen : ∀ obj, mapLen (mapUpdateObj st.ws cur.key obj) = mapLen st.ws := by
    intro obj; simp [mapLen, length_mapUpdateObj]
  rcases syncBody_cases w interval all st cur with
    ⟨_, h1⟩ | ⟨_, ri, ns, msg, hmsg, ⟨hnf, h1⟩ | ⟨hnf, _, h1⟩ | ⟨hnf, s, _, _, h1⟩⟩
  · rw [h1]; exact ⟨hnd, hcount, hrep⟩
  · rw [h1]
    simp only [stepState]
    refine ⟨by rw [keys_mapDelete]; exact hnd.filter _, ?_, ?_⟩
    · rw [closedKeys_append, closedKeys_cons_create, hnf, closedKeys_report hmsg]
      have := length_mapDelete_of_nodup st.ws cur.key hnd hkey
      simp only [mapLen, Bool.false_eq_true, if_false, List.append_nil, List.length_append,
        List.length_singleton] at hcount ⊢
      omega
    · intro r hr
      rw [progressReports_append, progressReports_closed hmsg] at hr
      simp only [List.map_nil, List.append_nil] at hr
      exact hrep r hr
  · rw [h1]
    simp only [stepState]
    refine ⟨by rw [keys_mapUpdateObj]; exact hnd, ?_⟩
    rw [hlen]
    exact hretry ri ns msg _ [] hmsg rfl rfl hnf rfl
  · rw [h1]
    simp only [stepState]
    refine ⟨by rw [keys_mapUpdateObj]; exact hnd, ?_⟩
    rw [hlen]
    exact hretry ri ns msg _ [Event.sleep (wrapInt64 (s * Second))] hmsg rfl rfl hnf rfl

theorem progress_counts_removed_documents (w : World) (fuel : Nat) (m : List Entry)
    (interval : Int) (hnd : (m.map Entry.key).Nodup) :
    ∀ r ∈ progressReports (SyncGVKUnstructuredObjMapToK8s w fuel m interval).state.trace,
      r.2.2 = mapLen m ∧ r.2.1 = ((closedKeys r.1).length : Int) := by
  have := syncLoop_invariant w interval (mapLen m)
    (fun st => (st.ws.map Entry.key).Nodup ∧
      mapLen m = mapLen st.ws + ((closedKeys st.trace).length : Int) ∧
      ∀ r ∈ progressReports st.trace,
        r.2.2 = mapLen m ∧ r.2.1 = ((closedKeys r.1).length : Int))
    (fun st cur h hc => progress_body w interval (mapLen m) st cur h hc)
    fuel 0 { ws := m, trace := [] } ⟨hnd, by simp [closedKeys], by simp [progressReports]⟩
  exact this.2.2

/-! ### The backoff duration -/

theorem toInt32_of_range (x : Int) (h0 : 0 ≤ x) (h1 : x < 2147483648) : toInt32 x = x := by
  unfold toInt32
  omega

theorem wrapInt64_seconds (s : Int) (h0 : 0 ≤ s) (h1 : s < 2147483648) :
    wrapInt64 (s * Second) = s * 1000000000 := by
  unfold wrapInt64 Second
  omega

theorem sleeps_append (a b : List Event) : sleeps (a ++ b) = sleeps a ++ sleeps b := by
  simp [sleeps, List.filterMap_append]

theorem sleeps_cons_report {msg : Event} (h : isReport msg = true) (tl : List Event) :
    sleeps (msg :: tl) = sleeps tl := by
  cases msg <;> simp_all [isReport, sleeps]

theorem sleep_bound_body (w : World) (interval all : Int) (h1 : 1 ≤ interval)
    (h2 : interval < 2147483648) (st : SyncState) (cur : Entry)
    (h : ∀ d ∈ sleeps st.trace, ∃ s, 0 ≤ s ∧ s < interval ∧ d = s * 1000000000) :
    ∀ d ∈ sleeps (stepState (syncBody w interval all st cur)).trace,
      ∃ s, 0 ≤ s ∧ s < interval ∧ d = s * 1000000000 := by
  have hconv := toInt32_of_range interval (by omega) h2
  rcases syncBody_cases w interval all st cur with
    ⟨_, e1⟩ | ⟨_, ri, ns, msg, hmsg, ⟨hnf, e1⟩ | ⟨hnf, _, e1⟩ | ⟨hnf, s, hs0, hs1, e1⟩⟩
  · rw [e1]; exact h
  · rw [e1]
    simp only [stepState]
    intro d hd
    rw [sleeps_append] at hd
    rcases List.mem_append.mp hd with hd | hd
    · exact h d hd
    · have : sleeps [Event.create cur.key ri (cur.obj.SetNamespace ns)
          (w.create st.trace cur.key ri (cur.obj.SetNamespace ns)), msg] = sleeps [msg] := by
        simp [sleeps]
      rw [this, sleeps_cons_report hmsg] at hd
      simp [sleeps] at hd
  · rw [e1]
    simp only [stepState]
    intro d hd
    rw [sleeps_append] at hd
    rcases List.mem_append.mp hd with hd | hd
    · exact h d hd
    · have : ∀ tl, sleeps (Event.create cur.key ri (cur.obj.SetNamespace ns)
          (w.create st.trace cur.key ri (cur.obj.SetNamespace ns)) :: msg :: tl) = sleeps (msg :: tl) := by
        intro tl; simp [sleeps]
      rw [this, sleeps_cons_report hmsg] at hd
      simp [sleeps] at hd
  · rw [e1]
    simp only [stepState]
    intro d hd
    rw [sleeps_append] at hd
    rcases List.mem_append.mp hd with hd | hd
    · exact h d hd
    · have : ∀ tl, sleeps (Event.create cur.key ri (cur.obj.SetNamespace ns)
          (w.create st.trace cur.key ri (cur.obj.SetNamespace ns)) :: msg :: tl) = sleeps (msg :: tl) := by
        intro tl; simp [sleeps]
      rw [this, sleeps_cons_report hmsg] at hd
      simp only [sleeps, List.filterMap_cons, List.filterMap_nil, List.mem_singleton] at hd
      rw [hconv] at hs1
      exact ⟨s, hs0, hs1, by rw [hd, wrapInt64_seconds s hs0 (by omega)]⟩

theorem syncRange_abort_fatal (w : World) (interval all : Int) (hint : 0 < toInt32 interval) :
    ∀ order st a, syncRange w interval all order st = .error a → a.1 = Abort.fatal := by
  intro order
  induction order with
  | nil => intro st a h; simp [syncRange] at h
  | cons e rest ih =>
    intro st a h
    cases hl : mapLookup st.ws e.key with
    | none => simp only [syncRange, hl] at h; exact ih st a h
    | some cur =>
      rcases syncBody_cases w interval all st cur with
        ⟨_, e1⟩ | ⟨_, ri, ns, msg, hmsg, ⟨_, e1⟩ | ⟨_, hi, _⟩ | ⟨_, s, _, _, e1⟩⟩
      · simp only [syncRange, hl, e1] at h
        cases h; rfl
      · simp only [syncRange, hl, e1] at h; exact ih _ a h
      · omega
      · simp only [syncRange, hl, e1] at h; exact ih _ a h

theorem syncLoop_abort_fatal (w : World) (interval all : Int) (hint : 0 < toInt32 interval) :
    ∀ fuel round st a st1, syncLoop w interval all fuel round st = SyncResult.aborted a st1 →
      a = Abort.fatal := by
  intro fuel
  induction fuel with
  | zero =>
    intro round st a st1 h
    unfold syncLoop at h
    split at h <;> cases h
  | succ n ih =>
    intro round st a st1 h
    unfold syncLoop at h
    split at h
    · cases hs : syncRange w interval all (w.range round st.ws) st with
      | error e =>
        rw [hs] at h
        simp only at h
        cases h
        exact syncRange_abort_fatal w interval all hint _ _ _ hs
      | ok st2 =>
        rw [hs] at h
        exact ih _ _ _ _ h
    · cases h

/-- What holds of the backoff for an interval that fits `int32`: every
sleep lasts a whole number of seconds `s` with `0 <= s < interval`, and the
run does not panic. -/
theorem sleep_bounds_for_int32_interval (w : World) (fuel : Nat) (m : List Entry)
    (interval : Int) (h1 : 1 ≤ interval) (h2 : interval < 2147483648) :
    (∀ d ∈ sleeps (SyncGVKUnstructuredObjMapToK8s w fuel m interval).state.trace,
      ∃ s, 0 ≤ s ∧ s < interval ∧ d = s * 1000000000) ∧
    ∀ st, SyncGVKUnstructuredObjMapToK8s w fuel m interval ≠
      SyncResult.aborted Abort.panic st := by
  constructor
  · exact syncLoop_invariant w interval (mapLen m)
      (fun st => ∀ d ∈ sleeps st.trace, ∃ s, 0 ≤ s ∧ s < interval ∧ d = s * 1000000000)
      (fun st cur h _ => sleep_bound_body w interval (mapLen m) h1 h2 st cur h)
      fuel 0 { ws := m, trace := [] } (by simp [sleeps])
  · intro st h
    have hint : 0 < toInt32 interval := by
      rw [toInt32_of_range interval (by omega) h2]; omega
    have := syncLoop_abort_fatal w interval (mapLen m) hint fuel 0 _ _ _ h
    cases this

/-- C8, at the failing input. The namespace is rejected with a terminal
error and the config map is not found: when the progress is reported no
document has been applied, yet the report reads `1 of 2`. -/
theorem progress_counts_dropped_document :
    (progressReports
        (SyncGVKUnstructuredObjMapToK8s worldInvalid 1 [docA, docB] 5).state.trace).map
      (fun r => ((appliedKeys r.1).length, r.2)) = [(0, 1, 2)] := by
  decide

/-- C9, at the failing input. With an interval of 2^32 seconds the
conversion to `int32` gives 0 and the first backoff computation panics. -/
theorem backoff_panics_on_large_interval :
    toInt32 4294967296 = 0 ∧
    ∃ st, SyncGVKUnstructuredObjMapToK8s worldNotFound 1 [docA] 4294967296 =
      SyncResult.aborted Abort.panic st ∧ sleeps st.trace = [] := by
  refine ⟨by decide, _, rfl, ?_⟩
  decide

/-! ### A document that depends on another -/

theorem syncBody_closed (w : World) (interval all : Int) (st : SyncState) (cur : Entry)
    (hres : resolves w cur = true)
    (hnf : ∀ ri ns, notFoundOutcome (w.create st.trace cur.key ri (cur.obj.SetNamespace ns)) = false) :
    ∃ ri ns msg, isReport msg = true ∧ syncBody w interval all st cur = .ok
      { ws := mapDelete st.ws cur.key,
        trace := st.trace ++ [Event.create cur.key ri (cur.obj.SetNamespace ns)
          (w.create st.trace cur.key ri (cur.obj.SetNamespace ns)), msg] } := by
  rcases syncBody_cases w interval all st cur with
    ⟨hr, _⟩ | ⟨_, ri, ns, msg, hmsg, ⟨_, h1⟩ | ⟨h, _, _⟩ | ⟨h, _⟩⟩
  · rw [hres] at hr; cases hr
  · exact ⟨ri, ns, msg, hmsg, h1⟩
  · rw [hnf] at h; cases h
  · rw [hnf] at h; cases h

theorem syncBody_retry (w : World) (interval all : Int) (st : SyncState) (cur : Entry)
    (hres : resolves w cur = true) (hint : 0 < toInt32 interval)
    (hnf : ∀ ri ns, notFoundOutcome (w.create st.trace cur.key ri (cur.obj.SetNamespace ns)) = true) :
    ∃ ri ns msg s, isReport msg = true ∧ syncBody w interval all st cur = .ok
      { ws := mapUpdateObj st.ws cur.key (cur.obj.SetNamespace ns),
        trace := st.trace ++ [Event.create cur.key ri (cur.obj.SetNamespace ns)
          (w.create st.trace cur.key ri (cur.obj.SetNamespace ns)), msg,
          Event.printProgress
            (all - mapLen (mapUpdateObj st.ws cur.key (cur.obj.SetNamespace ns))) all,
          Event.printRetrying interval,
          Event.sleep (wrapInt64 (s * Second))] } := by
  rcases syncBody_cases w interval all st cur with
    ⟨hr, _⟩ | ⟨_, ri, ns, msg, hmsg, ⟨h, _⟩ | ⟨_, hi, _⟩ | ⟨_, s, _, _, h1⟩⟩
  · rw [hres] at hr; cases hr
  · rw [hnf] at h; cases h
  · omega
  · exact ⟨ri, ns, msg, s, hmsg, h1⟩

theorem createdKeys_append (a b : List Event) :
    createdKeys (a ++ b) = createdKeys a ++ createdKeys b := by
  simp [createdKeys, List.filterMap_append]

theorem createdKeys_cons_report {msg : Event} (h : isReport msg = true) (tl : List Event) :
    createdKeys (msg :: tl) = createdKeys tl := by
  cases msg <;> simp_all [isReport, createdKeys]

theorem createdKeys_cons_notFound (k : Nat) (ri : ResourceInterface) (obj : Unstructured)
    (err : Option APIError) (h : notFoundOutcome err = true) (tl : List Event) :
    createdKeys (Event.create k ri obj err :: tl) = createdKeys tl := by
  cases err with
  | none => simp [notFoundOutcome] at h
  | some e => simp [createdKeys]

theorem createdKeys_cons_created (k : Nat) (ri : ResourceInterface) (obj : Unstructured)
    (tl : List Event) :
    createdKeys (Event.create k ri obj none :: tl) = k :: createdKeys tl := by
  simp [createdKeys]

theorem perm_pair {α : Type} {l : List α} {a b : α} (h : l.Perm [a, b]) :
    l = [a, b] ∨ l = [b, a] := by
  have hlen : l.length = 2 := by simpa using h.length_eq
  obtain ⟨x, y, rfl⟩ := List.length_eq_two.mp hlen
  have hx : x ∈ [a, b] := h.mem_iff.mp (by simp)
  simp only [List.mem_cons, List.mem_singleton, List.not_mem_nil, or_false] at hx
  rcases hx with rfl | rfl
  · left
    have := (List.perm_cons x).mp h
    rw [List.perm_singleton.mp this]
  · right
    have h2 : [x, y].Perm [x, a] := h.trans (List.Perm.swap _ _ _)
    have := (List.perm_cons x).mp h2
    rw [List.perm_singleton.mp this]

theorem createdIn_after_create (k : Nat) (t : List Event) (ri : ResourceInterface)
    (obj : Unstructured) (tl : List Event) :
    createdIn k (t ++ Event.create k ri obj none :: tl) = true := by
  simp [createdIn, createdKeys_append, createdKeys_cons_created]

/-- C5, as amended. Document B is not found until document A has been
created, and creating A always succeeds; the types of both resolve and the
interval is a positive `int32`: whatever the iteration order of each round,
the run returns within two rounds with an empty working set, and A has been
created before B. -/
theorem dependency_converges_in_two_rounds (w : World) (a b : Entry) (interval : Int)
    (hkey : a.key ≠ b.key) (hperm : ∀ r m, (w.range r m).Perm m)
    (hra : resolves w a = true) (hrb : resolves w b = true) (hint : 0 < toInt32 interval)
    (hA : ∀ hist ri ns, w.create hist a.key ri (a.obj.SetNamespace ns) = none)
    (hB1 : ∀ hist ri ns, createdIn a.key hist = true →
      w.create hist b.key ri (b.obj.SetNamespace ns) = none)
    (hB2 : ∀ hist ri ns, createdIn a.key hist = false →
      notFoundOutcome (w.create hist b.key ri (b.obj.SetNamespace ns)) = true) :
    ∃ st, SyncGVKUnstructuredObjMapToK8s w 2 [a, b] interval = SyncResult.returned st ∧
      st.ws = [] ∧ createdKeys st.trace = [a.key, b.key] := by
  have hab : (a.key == b.key) = false := by simpa using hkey
  have hba : (b.key == a.key) = false := by simpa using (Ne.symm hkey)
  have hlen2 : mapLen [a, b] ≥ 1 := by simp [mapLen]
  unfold SyncGVKUnstructuredObjMapToK8s
  rcases perm_pair (hperm 0 [a, b]) with h0 | h0
  · obtain ⟨ri1, ns1, msg1, hm1, hb1⟩ := syncBody_closed w interval (mapLen [a, b])
      { ws := [a, b], trace := [] } a hra (fun ri ns => by rw [hA]; rfl)
    rw [hA] at hb1
    have hws1 : mapDelete [a, b] a.key = [b] := by simp [mapDelete, Ne.symm hkey]
    dsimp only at hb1
    simp only [hws1, List.nil_append] at hb1
    have hc1 : createdIn a.key
        [Event.create a.key ri1 (a.obj.SetNamespace ns1) none, msg1] = true :=
      createdIn_after_create a.key [] ri1 _ [msg1]
    obtain ⟨ri2, ns2, msg2, hm2, hb2⟩ := syncBody_closed w interval (mapLen [a, b])
      { ws := [b], trace := [Event.create a.key ri1 (a.obj.SetNamespace ns1) none, msg1] }
      b hrb (fun ri ns => by rw [hB1 _ _ _ hc1]; rfl)
    rw [hB1 _ _ _ hc1] at hb2
    have hws2 : mapDelete [b] b.key = [] := by simp [mapDelete]
    dsimp only at hb2
    simp only [hws2] at hb2
    refine ⟨{ ws := [], trace := [Event.create a.key ri1 (a.obj.SetNamespace ns1) none, msg1] ++
      [Event.create b.key ri2 (b.obj.SetNamespace ns2) none, msg2] }, ?_, ?_, ?_⟩
    · simp only [syncLoop, hlen2, if_true, h0, syncRange, mapLookup, List.find?, beq_self_eq_true,
        hb1, hb2]
      simp [mapLen]
    · rfl
    · show createdKeys ([Event.create a.key ri1 (a.obj.SetNamespace ns1) none, msg1] ++
        [Event.create b.key ri2 (b.obj.SetNamespace ns2) none, msg2]) = [a.key, b.key]
      rw [createdKeys_append, createdKeys_cons_created, createdKeys_cons_report hm1,
        createdKeys_cons_created, createdKeys_cons_report hm2]
      rfl
  · have hc0 : createdIn a.key [] = false := by simp [createdIn, createdKeys]
    obtain ⟨ri1, ns1, msg1, s1, hm1, hb1⟩ := syncBody_retry w interval (mapLen [a, b])
      { ws := [a, b], trace := [] } b hrb hint (fun ri ns => hB2 _ _ _ hc0)
    have hnf1 := hB2 [] ri1 ns1 hc0
    have hws1 : mapUpdateObj [a, b] b.key (b.obj.SetNamespace ns1) =
        [a, { b with obj := b.obj.SetNamespace ns1 }] := by
      simp [mapUpdateObj, hkey]
    dsimp only at hb1
    simp only [hws1, List.nil_append] at hb1
    obtain ⟨ri2, ns2, msg2, hm2, hb2⟩ := syncBody_closed w interval (mapLen [a, b])
      { ws := [a, { b with obj := b.obj.SetNamespace ns1 }],
        trace := [Event.create b.key ri1 (b.obj.SetNamespace ns1)
          (w.create [] b.key ri1 (b.obj.SetNamespace ns1)), msg1,
          Event.printProgress
            (mapLen [a, b] - mapLen [a, { b with obj := b.obj.SetNamespace ns1 }]) (mapLen [a, b]),
          Event.printRetrying interval, Event.sleep (wrapInt64 (s1 * Second))] }
      a hra (fun ri ns => by rw [hA]; rfl)
    rw [hA] at hb2
    have hws2 : mapDelete [a, { b with obj := b.obj.SetNamespace ns1 }] a.key =
        [{ b with obj := b.obj.SetNamespace ns1 }] := by
      simp [mapDelete, Ne.symm hkey]
    dsimp only at hb2
    simp only [hws2] at hb2
    have hc2 : createdIn a.key ([Event.create b.key ri1 (b.obj.SetNamespace ns1)
          (w.create [] b.key ri1 (b.obj.SetNamespace ns1)), msg1,
          Event.printProgress
            (mapLen [a, b] - mapLen [a, { b with obj := b.obj.SetNamespace ns1 }]) (mapLen [a, b]),
          Event.printRetrying interval, Event.sleep (wrapInt64 (s1 * Second))] ++
          [Event.create a.key ri2 (a.obj.SetNamespace ns2) none, msg2]) = true :=
      createdIn_after_create a.key _ ri2 _ [msg2]
    have hr1 := List.perm_singleton.mp (hperm 1 [{ b with obj := b.obj.SetNamespace ns1 }])
    obtain ⟨ri3, ns3, msg3, hm3, hb3⟩ := syncBody_closed w interval (mapLen [a, b])
      { ws := [{ b with obj := b.obj.SetNamespace ns1 }],
        trace := [Event.create b.key ri1 (b.obj.SetNamespace ns1)
          (w.create [] b.key ri1 (b.obj.SetNamespace ns1)), msg1,
          Event.printProgress
            (mapLen [a, b] - mapLen [a, { b with obj := b.obj.SetNamespace ns1 }]) (mapLen [a, b]),
          Event.printRetrying interval, Event.sleep (wrapInt64 (s1 * Second))] ++
          [Event.create a.key ri2 (a.obj.SetNamespace ns2) none, msg2] }
      { b with obj := b.obj.SetNamespace ns1 } hrb
      (fun ri ns => by
        have := hB1 _ ri ns hc2
        show notFoundOutcome (w.create _ b.key ri (b.obj.SetNamespace ns)) = false
        rw [this]; rfl)
    have hcr3 := hB1 _ ri3 ns3 hc2
    have hws3 : mapDelete [{ b with obj := b.obj.SetNamespace ns1 }] b.key = [] := by
      simp [mapDelete]
    dsimp only at hb3
    simp only [hws3] at hb3
    have hobj : ({ b with obj := b.obj.SetNamespace ns1 } : Entry).obj.SetNamespace ns3 =
        b.obj.SetNamespace ns3 := rfl
    rw [hobj, hcr3] at hb3
    have hlen1 : mapLen [({ b with obj := b.obj.SetNamespace ns1 } : Entry)] ≥ 1 := by
      simp [mapLen]
    have hlen0 : ¬ mapLen ([] : List Entry) ≥ 1 := by simp [mapLen]
    refine ⟨{ ws := [], trace := [Event.create b.key ri1 (b.obj.SetNamespace ns1)
          (w.create [] b.key ri1 (b.obj.SetNamespace ns1)), msg1,
          Event.printProgress
            (mapLen [a, b] - mapLen [a, { b with obj := b.obj.SetNamespace ns1 }]) (mapLen [a, b]),
          Event.printRetrying interval, Event.sleep (wrapInt64 (s1 * Second))] ++
          [Event.create a.key ri2 (a.obj.SetNamespace ns2) none, msg2] ++
          [Event.create b.key ri3 (b.obj.SetNamespace ns3) none, msg3] }, ?_, rfl, ?_⟩
    · simp only [syncLoop, hlen2, if_true, h0, syncRange, mapLookup, List.find?, hba, hab,
        beq_self_eq_true, hb1, hb2, hlen1, hr1, hb3, hlen0, if_false]
    · show createdKeys (_ ++ _ ++ _) = _
      rw [createdKeys_append, createdKeys_append, createdKeys_cons_notFound _ _ _ _ hnf1,
        createdKeys_cons_report hm1, createdKeys_cons_created, createdKeys_cons_report hm2,
        createdKeys_cons_created, createdKeys_cons_report hm3]
      rfl

/-! ### Decoding -/

theorem mapSet_fresh (m : List Entry) (e : Entry) (h : ∀ x ∈ m, x.key < e.key) :
    mapSet m e = m ++ [e] := by
  unfold mapSet
  have : m.any (fun x => x.key == e.key) = false := by
    rw [List.any_eq_false]
    intro x hx
    have := h x hx
    simp only [beq_iff_eq]
    omega
  simp [this]

theorem decodeLoop_spec {ρ : Type} (decode : Bytes → Option (ρ × GroupVersionKind))
    (toUnstructured : ρ → Option Unstructured)
    (hconv : ∀ bytes obj gvk, decode bytes = some (obj, gvk) →
      (toUnstructured obj).isSome = true) :
    ∀ (decoder : List DecodeResult) (next : Nat) (m : List Entry),
      decoderPanics decoder = false → (∀ x ∈ m, x.key < next) →
      ∃ out, decodeLoop decode toUnstructured decoder next m = .ok (m ++ out) ∧
        out.map (fun e => (e.gvk, e.obj)) =
          validDocuments decode toUnstructured (reached decoder) ∧
        out.map Entry.key = List.range' next out.length := by
  intro decoder
  induction decoder with
  | nil =>
    intro next m _ _
    exact ⟨[], by simp [decodeLoop], by simp [reached, validDocuments], by simp⟩
  | cons r rest ih =>
    intro next m hp hm
    cases r with
    | error => exact ⟨[], by simp [decodeLoop], by simp [reached, validDocuments], by simp⟩
    | panic => simp [decoderPanics] at hp
    | raw bytes =>
      simp only [decoderPanics] at hp
      cases hd : decode bytes with
      | none =>
        obtain ⟨out, h1, h2, h3⟩ := ih next m hp hm
        refine ⟨out, ?_, ?_, h3⟩
        · simp only [decodeLoop, hd]; exact h1
        · rw [h2]; simp [reached, validDocuments, hd]
      | some p =>
        obtain ⟨obj, gvk⟩ := p
        obtain ⟨u, hu⟩ := Option.isSome_iff_exists.mp (hconv bytes obj gvk hd)
        have hset := mapSet_fresh m { key := next, gvk := gvk, obj := u } hm
        obtain ⟨out, h1, h2, h3⟩ := ih (next + 1) (m ++ [{ key := next, gvk := gvk, obj := u }])
          hp
          (by
            intro x hx
            rcases List.mem_append.mp hx with hx | hx
            · have := hm x hx; omega
            · rw [List.mem_singleton.mp hx]; simp)
        refine ⟨{ key := next, gvk := gvk, obj := u } :: out, ?_, ?_, ?_⟩
        · simp only [decodeLoop, hd, hu, hset]
          rw [h1]; simp
        · simp only [List.map_cons, h2]
          simp [reached, validDocuments, hd, hu]
        · simp only [List.map_cons, h3, List.length_cons]
          rw [List.range'_succ]

theorem decodeLoop_panics {ρ : Type} (decode : Bytes → Option (ρ × GroupVersionKind))
    (toUnstructured : ρ → Option Unstructured)
    (hconv : ∀ bytes obj gvk, decode bytes = some (obj, gvk) →
      (toUnstructured obj).isSome = true) :
    ∀ (decoder : List DecodeResult) (next : Nat) (m : List Entry),
      decoderPanics decoder = true →
      decodeLoop decode toUnstructured decoder next m = .error Abort.panic := by
  intro decoder
  induction decoder with
  | nil => intro next m hp; simp [decoderPanics] at hp
  | cons r rest ih =>
    intro next m hp
    cases r with
    | error => simp [decoderPanics] at hp
    | panic => simp [decodeLoop]
    | raw bytes =>
      simp only [decoderPanics] at hp
      cases hd : decode bytes with
      | none => simp only [decodeLoop, hd]; exact ih next m hp
      | some p =>
        obtain ⟨obj, gvk⟩ := p
        obtain ⟨u, hu⟩ := Option.isSome_iff_exists.mp (hconv bytes obj gvk hd)
        simp only [decodeLoop, hd, hu]
        exact ih _ _ hp

/-- What the decoding loop does on every stream whose decoded objects
convert: it aborts when it reaches a panic of the stream decoder, and
otherwise returns one entry, under a key of its own, for each valid document
that stands before the first error of the stream decoder, in source order.
The documents after that error are not read. -/
theorem decode_keeps_valid_documents_before_stream_error {ρ : Type}
    (decode : Bytes → Option (ρ × GroupVersionKind))
    (toUnstructured : ρ → Option Unstructured) (decoder : List DecodeResult) (next : Nat)
    (hconv : ∀ bytes obj gvk, decode bytes = some (obj, gvk) →
      (toUnstructured obj).isSome = true) :
    (decoderPanics decoder = true →
      FileBytesToUnstructuredObjGVKMap decode toUnstructured decoder next =
        .error Abort.panic) ∧
    (decoderPanics decoder = false →
      ∃ m, FileBytesToUnstructuredObjGVKMap decode toUnstructured decoder next = .ok m ∧
        m.map (fun e => (e.gvk, e.obj)) =
          validDocuments decode toUnstructured (reached decoder) ∧
        m.length = (validDocuments decode toUnstructured (reached decoder)).length ∧
        (m.map Entry.key).Nodup) := by
  constructor
  · intro hp
    exact decodeLoop_panics decode toUnstructured hconv decoder next [] hp
  · intro hp
    obtain ⟨out, h1, h2, h3⟩ := decodeLoop_spec decode toUnstructured hconv decoder next []
      hp (by simp)
    have hlen : out.length =
        (validDocuments decode toUnstructured (reached decoder)).length := by
      rw [← h2]; simp
    refine ⟨out, by simpa [FileBytesToUnstructuredObjGVKMap] using h1, h2, hlen, ?_⟩
    rw [h3]; exact List.nodup_range' _ _

/-- C4, at the failing input. A blob with two valid documents and, between
them, one document on which the stream decoder reports an error yields one
entry, not two: the loop is left at the error and the second valid document
is never read. When the document in the middle fails object decoding
instead, it is skipped and both valid documents are returned. -/
theorem decode_stops_at_unparseable_document :
    (validDocuments sampleDecode some
      (rawDocuments [DecodeResult.raw [1], DecodeResult.error, DecodeResult.raw [2, 3]])).length
      = 2 ∧
    (∃ m, FileBytesToUnstructuredObjGVKMap sampleDecode some
        [DecodeResult.raw [1], DecodeResult.error, DecodeResult.raw [2, 3]] 0 = .ok m ∧
      m.length = 1) ∧
    (∃ m, FileBytesToUnstructuredObjGVKMap sampleDecode some
        [DecodeResult.raw [1], DecodeResult.raw [0], DecodeResult.raw [2, 3]] 0 = .ok m ∧
      m.length = 2) := by
  refine ⟨by decide, ⟨_, rfl, by decide⟩, ⟨_, rfl, by decide⟩⟩

/-- A panic of the stream decoder on the document in the middle aborts the
run: no map is returned. -/
theorem decode_aborts_when_decoder_panics :
    FileBytesToUnstructuredObjGVKMap sampleDecode some
      [DecodeResult.raw [1], DecodeResult.panic, DecodeResult.raw [2, 3]] 0 =
      .error Abort.panic := by
  rfl

/-! ### Directories -/

theorem recognizedExt_eq (name : String) : recognizedExt name = hasRecognizedExtension name := by
  unfold recognizedExt hasRecognizedExtension
  by_cases h1 : Ext name = ".yaml" <;> by_cases h2 : Ext name = ".yml" <;>
    by_cases h3 : Ext name = ".json" <;> simp [h1, h2, h3]

theorem recognizedBlobs_append (a b : List (String × Bytes)) :
    recognizedBlobs (a ++ b) = recognizedBlobs a ++ recognizedBlobs b := by
  simp [recognizedBlobs]

mutual
theorem dirEntry_spec (dirname : String) (dirBytes : List Bytes) :
    ∀ n : FsNode, n.readable = true →
      dirEntry dirname dirBytes n = some (dirBytes ++ recognizedBlobs n.files)
  | FsNode.missing _, h => by simp [FsNode.readable] at h
  | FsNode.dir name entries readErr, h => by
    simp only [FsNode.readable, Bool.and_eq_true, Bool.not_eq_true'] at h
    have ih := dirLoop_spec (AddTrailingSlash dirname ++ name) [] entries h.2
    simp [dirEntry, ih, h.1, FsNode.files]
  | FsNode.file name none, h => by simp [FsNode.readable] at h
  | FsNode.file name (some content), _ => by
    by_cases hr : hasRecognizedExtension name = true
    · simp [dirEntry, recognizedExt_eq, hr, FsNode.files, recognizedBlobs]
    · simp [dirEntry, recognizedExt_eq, hr, FsNode.files, recognizedBlobs]
theorem dirLoop_spec (dirname : String) (dirBytes : List Bytes) :
    ∀ l : List FsNode, allReadable l = true →
      dirLoop dirname l dirBytes = some (dirBytes ++ recognizedBlobs (treeFiles l))
  | [], _ => by simp [dirLoop, treeFiles, recognizedBlobs]
  | n :: rest, h => by
    simp only [allReadable, Bool.and_eq_true] at h
    have h1 := dirEntry_spec dirname dirBytes n h.1
    have h2 := dirLoop_spec dirname (dirBytes ++ recognizedBlobs n.files) rest h.2
    simp [dirLoop, h1, h2, treeFiles, recognizedBlobs_append]
end

/-- C7. On a directory tree in which every file and every directory can be
read, `DirToBytes` returns without error exactly the contents of the files
whose extension is `.yaml`, `.yml` or `.json`, at any nesting depth, each
once and in traversal order; the length of the result is the number of such
files in the whole tree, and no file with another extension contributes. -/
theorem DirToBytes_collects_recognized_files (dirname : String) (files : List FsNode)
    (h : allReadable files = true) :
    DirToBytes dirname files false = some (recognizedBlobs (treeFiles files), false) ∧
    (recognizedBlobs (treeFiles files)).length =
      (treeFiles files).countP (fun f => Ext f.1 = ".yaml" ∨ Ext f.1 = ".yml" ∨ Ext f.1 = ".json") := by
  constructor
  · have := dirLoop_spec dirname [] files h
    simp [DirToBytes, this]
  · simp only [recognizedBlobs, List.length_map, List.countP_eq_length_filter]
    congr 2
    funext f
    simp [hasRecognizedExtension, Bool.or_assoc]

/-- C7, witness. -/
theorem DirToBytes_collects_recognized_files_witness :
    allReadable sampleTree = true ∧
    DirToBytes "manifests" sampleTree false = some ([[1], [2], [3], [5]], false) ∧
    (recognizedBlobs (treeFiles sampleTree)).length = 4 := by
  have h := DirToBytes_collects_recognized_files "manifests" sampleTree (by decide)
  refine ⟨by decide, ?_, by decide⟩
  rw [h.1]
  decide

/-! ### Instances on the sample inputs -/

/-- C1, witness. -/
theorem K8sApply_retry_iff_notFound_witness :
    (K8sApply worldNotFound [] 1 (Resource { Group := "", Version := "v1", Resource := "ConfigMap" })
      docB.obj).1 = true ∧
    (K8sApply worldOk [] 1 (Resource { Group := "", Version := "v1", Resource := "ConfigMap" })
      docB.obj).1 = false :=
  ⟨(K8sApply_retry_iff_notFound worldNotFound [] 1 _ docB.obj).1.mpr
      ⟨errNotFound, rfl, by decide⟩,
    (K8sApply_retry_iff_notFound worldOk [] 1 _ docB.obj).2.1 rfl⟩

/-- C2, witness. -/
theorem sync_removes_iff_not_notFound_witness :
    (worldInvalid.range 0 [docA, docB]).Perm [docA, docB] ∧
    ([docA, docB].map Entry.key).Nodup ∧
    (∀ e ∈ [docA, docB], resolves worldInvalid e = true) ∧
    0 < toInt32 5 ∧
    docB.key ∈ attemptKeys
      (SyncGVKUnstructuredObjMapToK8s worldInvalid (0 + 1) [docA, docB] 5).state.trace :=
  ⟨List.Perm.refl _, by decide, by decide, by decide,
    (sync_removes_iff_not_notFound worldInvalid 0 [docA, docB] 5 (List.Perm.refl _)
      (by decide) (by decide) (by decide)).2.2.1 docB (by decide)⟩

/-- C3, witness. -/
theorem namespace_defaulting_witness :
    worldOk.mapper docB.gvk.GroupKind docB.gvk.Version = some
      { Resource := { Group := "", Version := "v1", Resource := "ConfigMap" },
        Scope := RESTScopeName.RESTScopeNameNamespace } ∧
    ∃ ns, (if docB.obj.Namespace = "" then ns = "default" else ns = docB.obj.Namespace) ∧
      (∃ r msg, ApplyGVKUnstructuredObjMap worldOk [] 1 docB.gvk docB.obj = some r ∧
        r.obj = { docB.obj with Namespace := ns } ∧
        r.events = [Event.create 1
          { resource := { Group := "", Version := "v1", Resource := "ConfigMap" }, ns := some ns }
          r.obj
          (worldOk.create [] 1
            { resource := { Group := "", Version := "v1", Resource := "ConfigMap" }, ns := some ns }
            r.obj), msg]) ∧
      (∃ o evs msg, K8sDelete worldOk [] docB.gvk docB.obj = some (o, evs) ∧
        o = { docB.obj with Namespace := ns } ∧
        evs = [Event.delete
          { resource := { Group := "", Version := "v1", Resource := "ConfigMap" }, ns := some ns }
          docB.obj.Name
          (worldOk.delete []
            { resource := { Group := "", Version := "v1", Resource := "ConfigMap" }, ns := some ns }
            docB.obj.Name), msg]) :=
  ⟨rfl, (namespace_defaulting worldOk [] 1 docB.gvk docB.obj
    { Resource := { Group := "", Version := "v1", Resource := "ConfigMap" },
      Scope := RESTScopeName.RESTScopeNameNamespace } rfl).1 rfl⟩

/-- C5, counterexample. The config map is not found until the namespace has
been created and creating the namespace always succeeds, but the interval is
0 (or 2^32, which `int32` turns into 0): when the config map is iterated
first, the first backoff panics, nothing has been created and the working
set is not empty. -/
theorem dependency_run_panics_without_positive_interval :
    (∀ hist ri ns, worldDep.create hist docA.key ri (docA.obj.SetNamespace ns) = none) ∧
    (∀ hist ri ns, createdIn docA.key hist = true →
      worldDep.create hist docB.key ri (docB.obj.SetNamespace ns) = none) ∧
    (∀ hist ri ns, createdIn docA.key hist = false →
      notFoundOutcome (worldDep.create hist docB.key ri (docB.obj.SetNamespace ns)) = true) ∧
    (∀ r m, (worldDep.range r m).Perm m) ∧
    (∃ st, SyncGVKUnstructuredObjMapToK8s worldDep 2 [docA, docB] 0 =
        SyncResult.aborted Abort.panic st ∧
      createdKeys st.trace = [] ∧ st.ws.length = 2) ∧
    (∃ st, SyncGVKUnstructuredObjMapToK8s worldDep 2 [docA, docB] 4294967296 =
        SyncResult.aborted Abort.panic st ∧
      createdKeys st.trace = [] ∧ st.ws.length = 2) := by
  refine ⟨?_, ?_, ?_, fun _ m => List.reverse_perm m, ⟨_, rfl, by decide, by decide⟩,
    ⟨_, rfl, by decide, by decide⟩⟩
  · intro hist ri ns
    simp [worldDep, docA, Unstructured.SetNamespace]
  · intro hist ri ns h
    have h0 : createdIn 0 hist = true := h
    simp [worldDep, h0]
  · intro hist ri ns h
    have h0 : createdIn 0 hist = false := h
    simp [worldDep, docB, Unstructured.SetNamespace, h0, notFoundOutcome, IsNotFound,
      errNotFound, StatusReasonNotFound]

/-- C5, witness. -/
theorem dependency_converges_in_two_rounds_witness :
    ∃ st, SyncGVKUnstructuredObjMapToK8s worldDep 2 [docA, docB] 5 = SyncResult.returned st ∧
      st.ws = [] ∧ createdKeys st.trace = [docA.key, docB.key] :=
  dependency_converges_in_two_rounds worldDep docA docB 5 (by decide)
    (fun _ m => List.reverse_perm m) (by decide) (by decide) (by decide)
    (fun hist ri ns => by simp [worldDep, docA, Unstructured.SetNamespace])
    (fun hist ri ns h => by
      have h0 : createdIn 0 hist = true := h
      simp [worldDep, h0])
    (fun hist ri ns h => by
      have h0 : createdIn 0 hist = false := h
      simp [worldDep, docB, Unstructured.SetNamespace, h0, notFoundOutcome, IsNotFound,
        errNotFound, StatusReasonNotFound])

/-- C6, witness. -/
theorem cleanup_one_delete_per_document_witness :
    (worldNotFound.range 0 [docA, docB]).Perm [docA, docB] ∧
    (∀ e ∈ [docA, docB],
      (worldNotFound.mapper e.gvk.GroupKind e.gvk.Version).isSome = true) ∧
    ∃ trace, cleanupRun worldNotFound [docA, docB] = .ok trace ∧
      deleteNames trace = (worldNotFound.range 0 [docA, docB]).map (fun e => e.obj.Name) ∧
      (deleteNames trace).Perm ([docA, docB].map (fun e => e.obj.Name)) ∧
      (deleteNames trace).length = [docA, docB].length :=
  ⟨List.Perm.refl _, by decide,
    cleanup_one_delete_per_document worldNotFound [docA, docB] (List.Perm.refl _) (by decide)⟩

end K8sSync
